import Mathlib

/-!
Verification development for the room state synchronization and
reconciliation engine of the Bro-code collaborative editor server.

The definitions below are a shallow embedding of the TypeScript source:
  - src/server/src/server.ts        (socket event handlers, the Router)
  - src/server/src/models/room.ts   (room/file schema, save hook)
  - src/server/src/utils/dbScheduler.ts (maintenance cleanup)

Modelling decisions:
  - MongoDB ObjectIds are modelled as natural numbers handed out by a
    store counter (the `nextOid` field of `DB`); their 24-hex-character
    string rendering is modelled by the `IdStr.oidStr` constructor, and
    client-minted UUID strings by `IdStr.uuid`.  A UUID string is never a
    valid ObjectId (mongoose rejects it), and an ObjectId rendering always
    parses back to the id it came from, which is exactly how the two id
    spaces behave in the source.
  - A mongoose `updateOne`/`findOneAndUpdate` updates the first matching
    document; with `timestamps: true` it also refreshes `updatedAt`
    whenever a document matches.  `save` runs the subdocument pre-save
    hooks and refreshes `updatedAt`.  The `roomSchema.pre('findOneAndUpdate')`
    hook additionally sets `lastActivity`.
  - Socket deliveries are recorded as a list of `Emit` values; a separate
    `receives` predicate gives socket.io's delivery semantics for
    `io.to(...)` and `socket.broadcast.to(...)`.
-/

/-- Wire-level identifier strings: either the string rendering of a
store-assigned MongoDB ObjectId, or a client-minted UUID (which mongoose
cannot cast to an ObjectId). -/
inductive IdStr where
  | oidStr (n : Nat)
  | uuid (s : String)
deriving DecidableEq, Repr

/-- JavaScript truthiness of an id string (only the empty string is falsy). -/
def idTruthy : IdStr → Bool
  | .oidStr _ => true
  | .uuid s => !(s == "")

/-- mongoose.Types.ObjectId / isValidObjectId: a UUID string cannot be cast. -/
def parseOid : IdStr → Option Nat
  | .oidStr n => some n
  | .uuid _ => none

/-- mongoose.isValidObjectId on a wire id string. -/
def isValidObjectId (i : IdStr) : Bool := (parseOid i).isSome

/-- The `_id.toString()` rendering of a stored ObjectId. -/
def oidToStr (n : Nat) : IdStr := .oidStr n

/-- models `newFile.id || null` and similar JS defaulting. -/
def optIdOrNull : Option IdStr → Option IdStr
  | some i => if idTruthy i then some i else none
  | none => none

inductive FType where
  | file
  | folder
deriving DecidableEq, Repr

/-- A file-tree node, from `fileSchema` in src/server/src/models/room.ts. -/
structure FileNode where
  _id : Nat
  name : String
  content : String
  ftype : FType
  originalId : Option IdStr
  parentId : Option Nat
  parentOriginalId : Option IdStr
deriving DecidableEq, Repr

structure ChatMessage where
  username : String
  message : String
  timestamp : Int
deriving DecidableEq, Repr

/-- A room document, from `roomSchema` in src/server/src/models/room.ts.
`updatedAt` is the mongoose `timestamps: true` field; `lastActivity` is the
schema's explicit field with a `pre('findOneAndUpdate')` refresh hook. -/
structure Room where
  roomId : String
  files : List FileNode
  chatMessages : List ChatMessage
  drawing : Option String
  lastActivity : Int
  updatedAt : Int
deriving DecidableEq, Repr

inductive ConnStatus where
  | online
  | offline
deriving DecidableEq, Repr

/-- Modelled from the spec: the durable user record.  The file
src/server/src/models/user.ts is not part of src/; its fields are
reconstructed from the spec's User description (§3) and from the fields
server.ts and dbScheduler.ts read and write on `UserModel` (username,
roomId, status, cursorPosition, typing, socketId, and the mongoose
timestamp `updatedAt` that the cleanup query filters on). -/
structure DbUser where
  username : String
  roomId : String
  status : ConnStatus
  cursorPosition : Nat
  typing : Bool
  socketId : String
  updatedAt : Int
deriving DecidableEq, Repr

/-- In-memory presence entry, from types/user.ts as used by `userSocketMap`. -/
structure User where
  username : String
  roomId : String
  status : ConnStatus
  cursorPosition : Nat
  typing : Bool
  socketId : String
deriving DecidableEq, Repr

/-- The durable store: room documents, user documents, and the ObjectId
counter that models MongoDB id assignment. -/
structure DB where
  rooms : List Room
  users : List DbUser
  nextOid : Nat
deriving DecidableEq, Repr

/-- Whole-server state: the store plus the in-memory `userSocketMap`. -/
structure ServerState where
  db : DB
  userSocketMap : List User
deriving DecidableEq, Repr

/-- Payload of DIRECTORY_CREATED's `newDirectory` (the handler reads only
`name`; the client-minted `id` is carried but never persisted). -/
structure NewDirectory where
  id : Option IdStr
  name : String
deriving DecidableEq, Repr

/-- Payload of FILE_CREATED's `newFile`. -/
structure NewFile where
  id : Option IdStr
  name : String
  content : Option String
deriving DecidableEq, Repr

/-- Events emitted back to clients, with enough payload to state the claims. -/
inductive EventMsg where
  | usernameExists
  | joinAccepted (user : User) (users : List User)
  | userJoined (user : User)
  | directoryCreatedEv (parentDirId : Option IdStr) (newDirectory : NewDirectory)
  | directoryUpdatedEv (dirId : IdStr) (children : String)
  | directoryRenamedEv (dirId : IdStr) (newName : String)
  | directoryDeletedEv (dirId : IdStr)
  | fileCreatedEv (parentDirId : Option IdStr) (newFile : NewFile) (mongoId : Nat)
  | fileRenamedEv (fileId : IdStr) (newName : String)
  | fileDeletedEv (fileId : IdStr)
  | fileStructureUpdated (files : List FileNode)
  | syncFileStructureEv (payload : String)
  | receiveMessage (username : String) (message : String)
  | requestDrawingEv (socketId : String)
  | syncDrawingEv (drawingData : String)
  | drawingUpdateEv (snapshot : String)
  | typingStartEv (user : User)
  | typingPauseEv (user : User)
  | userOfflineEv (socketId : String)
  | userOnlineEv (socketId : String)
deriving DecidableEq, Repr

/-- A single socket.io emission.  `toSocket` is `io.to(socketId).emit`,
`toRoom` is `io.to(roomId).emit` (reaches every member, sender included),
`broadcastToRoom` is `socket.broadcast.to(roomId).emit` (excludes the
sender), `broadcastToSocket` is `socket.broadcast.to(socketId).emit`. -/
inductive Emit where
  | toSocket (target : String) (ev : EventMsg)
  | toRoom (roomId : String) (ev : EventMsg)
  | broadcastToRoom (sender : String) (roomId : String) (ev : EventMsg)
  | broadcastToSocket (sender : String) (target : String) (ev : EventMsg)
deriving DecidableEq, Repr

/-- Is socket `s` currently joined to room `rid` (socket.io room membership,
kept in lockstep with `userSocketMap` by the join/disconnect handlers)? -/
def memberB (m : List User) (s rid : String) : Bool :=
  m.any fun u => u.socketId == s && u.roomId == rid

/-- Does socket `s` receive emission `e`, given membership map `m`? -/
def receives (m : List User) (e : Emit) (s : String) : Bool :=
  match e with
  | .toSocket t _ => s == t
  | .toRoom rid _ => memberB m s rid
  | .broadcastToRoom sender rid _ => memberB m s rid && !(s == sender)
  | .broadcastToSocket sender t _ => s == t && !(s == sender)

/-- Update the first element satisfying `p` with `g`; report whether one
matched.  This models mongoose `updateOne` (first matching document) and
the positional `$` operator (first matching array element). -/
def updateFirst (p : α → Bool) (g : α → α) : List α → List α × Bool
  | [] => ([], false)
  | a :: as =>
    if p a then (g a :: as, true)
    else
      let r := updateFirst p g as
      (a :: r.1, r.2)

/-- Index of the first element satisfying `p`. -/
def findIdxP (p : α → Bool) : List α → Option Nat
  | [] => none
  | a :: as => if p a then some 0 else (findIdxP p as).map (· + 1)

/-- Apply `g` to the element at index `i` (identity when out of range). -/
def applyIdx (g : α → α) : List α → Nat → List α
  | [], _ => []
  | a :: as, 0 => g a :: as
  | a :: as, i + 1 => a :: applyIdx g as i

/-! ## Presence helpers (server.ts lines 133-158) -/

/-- server.ts `getUsersInRoom`. -/
def getUsersInRoom (m : List User) (roomId : String) : List User :=
  m.filter fun u => u.roomId == roomId

/-- server.ts `getRoomId`: the sender's registry entry's room, with the JS
falsy check (`if (!roomId) return null`) on the empty string. -/
def getRoomId (st : ServerState) (socketId : String) : Option String :=
  match (st.userSocketMap.find? fun u => u.socketId == socketId).map (·.roomId) with
  | some rid => if rid == "" then none else some rid
  | none => none

/-- server.ts `getUserBySocketId`. -/
def getUserBySocketId (st : ServerState) (socketId : String) : Option User :=
  st.userSocketMap.find? fun u => u.socketId == socketId

/-! ## Store primitives -/

/-- `RoomModel.findOne({ roomId })`. -/
def dbFindRoom (db : DB) (rid : String) : Option Room :=
  db.rooms.find? fun r => r.roomId == rid

/-- `RoomModel.updateOne(filter, update)`: update the first matching room
document, reporting whether one matched (with `timestamps: true` a matched
document is also modified, via its refreshed `updatedAt`). -/
def dbUpdateOneRoom (db : DB) (p : Room → Bool) (g : Room → Room) : DB × Bool :=
  let r := updateFirst p g db.rooms
  ({ db with rooms := r.1 }, r.2)

/-- `UserModel.findOneAndUpdate({ socketId }, ...)`. -/
def dbUpdateUser (db : DB) (socketId : String) (g : DbUser → DbUser) : DB :=
  { db with users := (updateFirst (fun u => u.socketId == socketId) g db.users).1 }

/-- The `fileSchema.pre('save')` hook from models/room.ts: if
`parentOriginalId` is truthy and `parentId` is unset, try to cast it. -/
def fileSaveHook (f : FileNode) : FileNode :=
  match f.parentId with
  | some _ => f
  | none =>
    match f.parentOriginalId with
    | none => f
    | some pid =>
      if idTruthy pid then
        match parseOid pid with
        | some n => { f with parentId := some n }
        | none => f
      else f

/-- `room.save()`: run the subdocument pre-save hooks and refresh
`updatedAt` (`lastActivity` is untouched: its hook fires only on
`findOneAndUpdate`). -/
def roomSave (now : Int) (r : Room) : Room :=
  { r with files := r.files.map fileSaveHook, updatedAt := now }

/-- Replace the first room with the given roomId by `r1` (persisting a
mutated document retrieved with `findOne`). -/
def dbReplaceRoom (db : DB) (rid : String) (r1 : Room) : DB :=
  { db with rooms := (updateFirst (fun r => r.roomId == rid) (fun _ => r1) db.rooms).1 }

/-! ## JOIN_REQUEST handler (server.ts lines 162-220) -/

/-- A freshly created room document
(`new RoomModel({roomId, files: [], chatMessages: [], drawing: null})`). -/
def freshRoom (rid : String) (now : Int) : Room :=
  { roomId := rid, files := [], chatMessages := [], drawing := none,
    lastActivity := now, updatedAt := now }

/-- The JOIN_REQUEST handler.  Note the order of effects in the source:
the room document is created (if absent) and the durable user record is
saved with status online BEFORE the duplicate-username check runs. -/
def joinRequest (st : ServerState) (now : Int) (sid rid username : String) :
    ServerState × List Emit :=
  let rooms1 :=
    match dbFindRoom st.db rid with
    | some _ => st.db.rooms
    | none => st.db.rooms ++ [freshRoom rid now]
  let newDbUser : DbUser :=
    { username := username, roomId := rid, status := .online,
      cursorPosition := 0, typing := false, socketId := sid, updatedAt := now }
  let db1 : DB := { st.db with rooms := rooms1, users := st.db.users ++ [newDbUser] }
  let isUsernameExist :=
    (getUsersInRoom st.userSocketMap rid).filter fun u => u.username == username
  if isUsernameExist.length > 0 then
    ({ st with db := db1 }, [.toSocket sid .usernameExists])
  else
    let user : User :=
      { username := username, roomId := rid, status := .online,
        cursorPosition := 0, typing := false, socketId := sid }
    let map1 := st.userSocketMap ++ [user]
    let st1 : ServerState := { db := db1, userSocketMap := map1 }
    (st1, [Emit.broadcastToRoom sid rid (.userJoined user),
           Emit.toSocket sid (.joinAccepted user (getUsersInRoom map1 rid))])

/-! ## File and directory handlers (server.ts lines 242-536) -/

/-- The SYNC_FILE_STRUCTURE handler (lines 242-251): relays the payload to
the target socket with no membership check at all. -/
def syncFileStructure (st : ServerState) (payload : String) (targetSocketId : String) :
    ServerState × List Emit :=
  (st, [Emit.toSocket targetSocketId (.syncFileStructureEv payload)])

/-- The folder subdocument built by the DIRECTORY_CREATED handler: only
name, type and a cast parentId; the client-minted `newDirectory.id` and a
parentOriginalId are NOT persisted (schema defaults apply). -/
def mkDirObj (oid : Nat) (parentDirId : Option IdStr) (dirName : String) : FileNode :=
  let parentId : Option Nat :=
    match parentDirId with
    | some p => if idTruthy p && isValidObjectId p then parseOid p else none
    | none => none
  { _id := oid, name := dirName, content := "", ftype := .folder,
    originalId := none, parentId := parentId, parentOriginalId := none }

/-- The DIRECTORY_CREATED handler (lines 253-286).  The folder's
client-minted id (`newDirectory.id`) is never persisted: the stored
subdocument has only name, type and a parentId cast from `parentDirId`. -/
def directoryCreated (st : ServerState) (now : Int) (sid : String)
    (parentDirId : Option IdStr) (newDirectory : NewDirectory) :
    ServerState × List Emit :=
  match getRoomId st sid with
  | none => (st, [])
  | some rid =>
    let db1 :=
      match dbFindRoom st.db rid with
      | none => st.db
      | some room =>
        let fileObj := mkDirObj st.db.nextOid parentDirId newDirectory.name
        let room1 := roomSave now { room with files := room.files ++ [fileObj] }
        { dbReplaceRoom st.db rid room1 with nextOid := st.db.nextOid + 1 }
    ({ st with db := db1 },
     [Emit.broadcastToRoom sid rid (.directoryCreatedEv parentDirId newDirectory)])

/-- The DIRECTORY_UPDATED handler (lines 288-299): no store change. -/
def directoryUpdated (st : ServerState) (sid : String)
    (dirId : IdStr) (children : String) : ServerState × List Emit :=
  match getRoomId st sid with
  | none => (st, [])
  | some rid =>
    (st, [Emit.broadcastToRoom sid rid (.directoryUpdatedEv dirId children)])

/-- `updateOne({roomId, "files._id": id}, {$set: {"files.$.name": newName}})`
shared by the rename handlers.  An id that cannot be cast to an ObjectId
makes the query throw a CastError, which the handler catches: no change. -/
def renameNodeOp (db : DB) (rid : String) (nodeId : IdStr) (newName : String)
    (now : Int) : DB :=
  match parseOid nodeId with
  | none => db
  | some oid =>
    (dbUpdateOneRoom db
      (fun r => r.roomId == rid && r.files.any fun f => f._id == oid)
      (fun r =>
        { r with
          files := (updateFirst (fun f => f._id == oid)
            (fun f => { f with name := newName }) r.files).1,
          updatedAt := now })).1

/-- `updateOne({roomId}, {$pull: {files: {_id: id}}})` shared by the delete
handlers; same CastError behaviour on an uncastable id. -/
def deleteNodeOp (db : DB) (rid : String) (nodeId : IdStr) (now : Int) : DB :=
  match parseOid nodeId with
  | none => db
  | some oid =>
    (dbUpdateOneRoom db (fun r => r.roomId == rid)
      (fun r =>
        { r with files := r.files.filter fun f => !(f._id == oid),
                 updatedAt := now })).1

/-- The DIRECTORY_RENAMED handler (lines 301-320). -/
def directoryRenamed (st : ServerState) (now : Int) (sid : String)
    (dirId : IdStr) (newName : String) : ServerState × List Emit :=
  match getRoomId st sid with
  | none => (st, [])
  | some rid =>
    ({ st with db := renameNodeOp st.db rid dirId newName now },
     [Emit.broadcastToRoom sid rid (.directoryRenamedEv dirId newName)])

/-- The DIRECTORY_DELETED handler (lines 322-338). -/
def directoryDeleted (st : ServerState) (now : Int) (sid : String)
    (dirId : IdStr) : ServerState × List Emit :=
  match getRoomId st sid with
  | none => (st, [])
  | some rid =>
    ({ st with db := deleteNodeOp st.db rid dirId now },
     [Emit.broadcastToRoom sid rid (.directoryDeletedEv dirId)])

/-- The file subdocument built by the FILE_CREATED handler (lines 362-399):
parent lookup by stored `_id` rendering or by `originalId`, with a raw
ObjectId cast as fallback; both the frontend id and the parent's original
id string are persisted alongside. -/
def mkFileObj (oid : Nat) (room : Room) (parentDirId : Option IdStr)
    (newFile : NewFile) : FileNode :=
  let parentObjectId : Option Nat :=
    match parentDirId with
    | none => none
    | some pid =>
      if idTruthy pid then
        match room.files.find? fun f =>
            oidToStr f._id == pid || f.originalId == some pid with
        | some parentFolder => some parentFolder._id
        | none => parseOid pid
      else none
  { _id := oid, name := newFile.name, content := newFile.content.getD "",
    ftype := .file, originalId := optIdOrNull newFile.id,
    parentId := parentObjectId, parentOriginalId := parentDirId }

/-- The FILE_CREATED handler (lines 340-429). -/
def fileCreated (st : ServerState) (now : Int) (sid : String)
    (parentDirId : Option IdStr) (newFile : NewFile) : ServerState × List Emit :=
  match getRoomId st sid with
  | none => (st, [])
  | some rid =>
    match dbFindRoom st.db rid with
    | none => (st, [])
    | some room =>
      let fileObj := mkFileObj st.db.nextOid room parentDirId newFile
      let room1 := roomSave now { room with files := room.files ++ [fileObj] }
      let db1 := { dbReplaceRoom st.db rid room1 with nextOid := st.db.nextOid + 1 }
      ({ st with db := db1 },
       [Emit.broadcastToRoom sid rid (.fileCreatedEv parentDirId newFile st.db.nextOid)])

/-- The authoritative refresh at the end of the FILE_UPDATED handler
(lines 487-493): re-read the room and emit its whole file collection to
the room with `io.to(roomId)` (sender included). -/
def emitRefresh (st : ServerState) (rid : String) : ServerState × List Emit :=
  match dbFindRoom st.db rid with
  | some room => (st, [Emit.toRoom rid (.fileStructureUpdated room.files)])
  | none => (st, [])

/-- The FILE_UPDATED handler (lines 431-497): tier 1 by `_id` (only when the
wire id is a valid ObjectId), tier 2 by `originalId`, tier 3 a manual scan
comparing `_id.toString()` and `originalId`; the first tier that modifies
the store wins, and a full miss returns silently with no save and no emit. -/
def fileUpdated (st : ServerState) (now : Int) (sid : String)
    (fileId : IdStr) (newContent : String) : ServerState × List Emit :=
  match getRoomId st sid with
  | none => (st, [])
  | some rid =>
    let r1 : DB × Bool :=
      match parseOid fileId with
      | some oid =>
        dbUpdateOneRoom st.db
          (fun r => r.roomId == rid && r.files.any fun f => f._id == oid)
          (fun r =>
            { r with
              files := (updateFirst (fun f => f._id == oid)
                (fun f => { f with content := newContent }) r.files).1,
              updatedAt := now })
      | none => (st.db, false)
    if r1.2 then emitRefresh { st with db := r1.1 } rid
    else
      let r2 : DB × Bool :=
        dbUpdateOneRoom r1.1
          (fun r => r.roomId == rid && r.files.any fun f => f.originalId == some fileId)
          (fun r =>
            { r with
              files := (updateFirst (fun f => f.originalId == some fileId)
                (fun f => { f with content := newContent }) r.files).1,
              updatedAt := now })
      if r2.2 then emitRefresh { st with db := r2.1 } rid
      else
        match dbFindRoom r2.1 rid with
        | none => ({ st with db := r2.1 }, [])
        | some room =>
          match findIdxP
              (fun f => oidToStr f._id == fileId || f.originalId == some fileId)
              room.files with
          | none => ({ st with db := r2.1 }, [])
          | some i =>
            let room1 := roomSave now
              { room with
                files := applyIdx (fun f => { f with content := newContent })
                  room.files i }
            emitRefresh { st with db := dbReplaceRoom r2.1 rid room1 } rid

/-- The FILE_RENAMED handler (lines 499-518): matches solely on
`files._id`; the delta broadcast is sent whether or not anything matched. -/
def fileRenamed (st : ServerState) (now : Int) (sid : String)
    (fileId : IdStr) (newName : String) : ServerState × List Emit :=
  match getRoomId st sid with
  | none => (st, [])
  | some rid =>
    ({ st with db := renameNodeOp st.db rid fileId newName now },
     [Emit.broadcastToRoom sid rid (.fileRenamedEv fileId newName)])

/-- The FILE_DELETED handler (lines 520-536): `$pull` by `files._id` only;
the delta broadcast is sent unconditionally. -/
def fileDeleted (st : ServerState) (now : Int) (sid : String)
    (fileId : IdStr) : ServerState × List Emit :=
  match getRoomId st sid with
  | none => (st, [])
  | some rid =>
    ({ st with db := deleteNodeOp st.db rid fileId now },
     [Emit.broadcastToRoom sid rid (.fileDeletedEv fileId)])

/-! ## Presence, chat and drawing handlers (server.ts lines 539-691) -/

/-- The USER_OFFLINE handler (lines 539-560): keyed on the payload's
socketId, not the sender's. -/
def userOffline (st : ServerState) (now : Int) (sid : String)
    (socketId : String) : ServerState × List Emit :=
  let map1 := st.userSocketMap.map fun u =>
    if u.socketId == socketId then { u with status := .offline } else u
  let st1 := { st with userSocketMap := map1 }
  match getRoomId st1 socketId with
  | none => (st1, [])
  | some rid =>
    let db1 := dbUpdateUser st1.db socketId
      fun du => { du with status := .offline, updatedAt := now }
    ({ st1 with db := db1 },
     [Emit.broadcastToRoom sid rid (.userOfflineEv socketId)])

/-- The USER_ONLINE handler (lines 562-583). -/
def userOnline (st : ServerState) (now : Int) (sid : String)
    (socketId : String) : ServerState × List Emit :=
  let map1 := st.userSocketMap.map fun u =>
    if u.socketId == socketId then { u with status := .online } else u
  let st1 := { st with userSocketMap := map1 }
  match getRoomId st1 socketId with
  | none => (st1, [])
  | some rid =>
    let db1 := dbUpdateUser st1.db socketId
      fun du => { du with status := .online, updatedAt := now }
    ({ st1 with db := db1 },
     [Emit.broadcastToRoom sid rid (.userOnlineEv socketId)])

/-- The SEND_MESSAGE handler (lines 586-611): `findOneAndUpdate` pushing the
message, which fires the roomSchema hook refreshing `lastActivity`. -/
def sendMessage (st : ServerState) (now : Int) (sid : String)
    (username message : String) : ServerState × List Emit :=
  match getRoomId st sid with
  | none => (st, [])
  | some rid =>
    let db1 := (dbUpdateOneRoom st.db (fun r => r.roomId == rid)
      (fun r =>
        { r with
          chatMessages := r.chatMessages ++
            [{ username := username, message := message, timestamp := now }],
          lastActivity := now, updatedAt := now })).1
    ({ st with db := db1 },
     [Emit.broadcastToRoom sid rid (.receiveMessage username message)])

/-- The TYPING_START handler (lines 614-636). -/
def typingStart (st : ServerState) (now : Int) (sid : String)
    (cursorPosition : Nat) : ServerState × List Emit :=
  let map1 := st.userSocketMap.map fun u =>
    if u.socketId == sid then { u with typing := true, cursorPosition := cursorPosition } else u
  let st1 := { st with userSocketMap := map1 }
  match getUserBySocketId st1 sid with
  | none => (st1, [])
  | some user =>
    let db1 := dbUpdateUser st1.db sid
      fun du => { du with typing := true, cursorPosition := cursorPosition, updatedAt := now }
    ({ st1 with db := db1 },
     [Emit.broadcastToRoom sid user.roomId (.typingStartEv user)])

/-- The TYPING_PAUSE handler (lines 638-660). -/
def typingPause (st : ServerState) (now : Int) (sid : String) :
    ServerState × List Emit :=
  let map1 := st.userSocketMap.map fun u =>
    if u.socketId == sid then { u with typing := false } else u
  let st1 := { st with userSocketMap := map1 }
  match getUserBySocketId st1 sid with
  | none => (st1, [])
  | some user =>
    let db1 := dbUpdateUser st1.db sid
      fun du => { du with typing := false, updatedAt := now }
    ({ st1 with db := db1 },
     [Emit.broadcastToRoom sid user.roomId (.typingPauseEv user)])

/-- The REQUEST_DRAWING handler (lines 662-668). -/
def requestDrawing (st : ServerState) (sid : String) : ServerState × List Emit :=
  match getRoomId st sid with
  | none => (st, [])
  | some rid =>
    (st, [Emit.broadcastToRoom sid rid (.requestDrawingEv sid)])

/-- The SYNC_DRAWING handler (lines 670-674): relays to the payload's
target socket with no membership check. -/
def syncDrawing (st : ServerState) (sid : String)
    (drawingData targetSocketId : String) : ServerState × List Emit :=
  (st, [Emit.broadcastToSocket sid targetSocketId (.syncDrawingEv drawingData)])

/-- The DRAWING_UPDATE handler (lines 676-691): `findOneAndUpdate`, so the
`lastActivity` hook fires. -/
def drawingUpdate (st : ServerState) (now : Int) (sid : String)
    (snapshot : String) : ServerState × List Emit :=
  match getRoomId st sid with
  | none => (st, [])
  | some rid =>
    let db1 := (dbUpdateOneRoom st.db (fun r => r.roomId == rid)
      (fun r => { r with drawing := some snapshot,
                         lastActivity := now, updatedAt := now })).1
    ({ st with db := db1 },
     [Emit.broadcastToRoom sid rid (.drawingUpdateEv snapshot)])

/-! ## Maintenance scheduler (utils/dbScheduler.ts lines 6-33) -/

/-- Milliseconds per day. -/
def msPerDay : Int := 86400000

/-- `cleanupStaleData`: note both `deleteMany` queries filter on the
mongoose `updatedAt` timestamp, not on the room's `lastActivity` field. -/
def cleanupStaleData (now : Int) (db : DB) : DB :=
  let thirtyDaysAgo := now - 30 * msPerDay
  let oneDayAgo := now - msPerDay
  { db with
    rooms := db.rooms.filter fun r => !(decide (r.updatedAt < thirtyDaysAgo)),
    users := db.users.filter fun u =>
      !(u.status == .offline && decide (u.updatedAt < oneDayAgo)) }

/-! ## Event dispatch -/

/-- The inbound file-tree mutation events of the wire protocol. -/
inductive FileEvent where
  | dirCreated (parentDirId : Option IdStr) (newDirectory : NewDirectory)
  | dirUpdated (dirId : IdStr) (children : String)
  | dirRenamed (dirId : IdStr) (newName : String)
  | dirDeleted (dirId : IdStr)
  | fCreated (parentDirId : Option IdStr) (newFile : NewFile)
  | fUpdated (fileId : IdStr) (newContent : String)
  | fRenamed (fileId : IdStr) (newName : String)
  | fDeleted (fileId : IdStr)
deriving DecidableEq, Repr

/-- Dispatch a file-tree mutation event to its handler. -/
def handleFileEvent (st : ServerState) (now : Int) (sid : String) :
    FileEvent → ServerState × List Emit
  | .dirCreated p nd => directoryCreated st now sid p nd
  | .dirUpdated d c => directoryUpdated st sid d c
  | .dirRenamed d n => directoryRenamed st now sid d n
  | .dirDeleted d => directoryDeleted st now sid d
  | .fCreated p nf => fileCreated st now sid p nf
  | .fUpdated i c => fileUpdated st now sid i c
  | .fRenamed i n => fileRenamed st now sid i n
  | .fDeleted i => fileDeleted st now sid i

/-- All inbound events other than JOIN_REQUEST and the disconnect path. -/
inductive ClientEvent where
  | fileEv (e : FileEvent)
  | sendMessageEv (username message : String)
  | requestDrawingEv
  | drawingUpdateEv (snapshot : String)
  | typingStartEv (cursorPosition : Nat)
  | typingPauseEv
  | userOfflineEv (socketId : String)
  | userOnlineEv (socketId : String)
  | syncFileStructureEv (payload : String) (targetSocketId : String)
  | syncDrawingEv (drawingData : String) (targetSocketId : String)
deriving DecidableEq, Repr

/-- Dispatch any non-join event. -/
def handleEvent (st : ServerState) (now : Int) (sid : String) :
    ClientEvent → ServerState × List Emit
  | .fileEv e => handleFileEvent st now sid e
  | .sendMessageEv u m => sendMessage st now sid u m
  | .requestDrawingEv => requestDrawing st sid
  | .drawingUpdateEv s => drawingUpdate st now sid s
  | .typingStartEv c => typingStart st now sid c
  | .typingPauseEv => typingPause st now sid
  | .userOfflineEv s => userOffline st now sid s
  | .userOnlineEv s => userOnline st now sid s
  | .syncFileStructureEv p t => syncFileStructure st p t
  | .syncDrawingEv d t => syncDrawing st sid d t

/-! ## The three-tier resolution of FILE_UPDATED, named for the claims -/

/-- Tier 1: durable-id equality (only when the wire id is a valid ObjectId). -/
def findIdxDurable (files : List FileNode) (fid : IdStr) : Option Nat :=
  match parseOid fid with
  | some oid => findIdxP (fun f => f._id == oid) files
  | none => none

/-- Tier 2: transient-id (originalId) equality. -/
def findIdxTransient (files : List FileNode) (fid : IdStr) : Option Nat :=
  findIdxP (fun f => f.originalId == some fid) files

/-- Tier 3: the last-resort linear scan comparing stringified ids. -/
def findIdxScan (files : List FileNode) (fid : IdStr) : Option Nat :=
  findIdxP (fun f => oidToStr f._id == fid || f.originalId == some fid) files

/-- The three tiers chained with first-success short-circuit. -/
def resolveThreeTier (files : List FileNode) (fid : IdStr) : Option Nat :=
  match findIdxDurable files fid with
  | some i => some i
  | none =>
    match findIdxTransient files fid with
    | some i => some i
    | none => findIdxScan files fid

/-- Is this emission the authoritative full-refresh broadcast? -/
def isRefreshEmit : Emit → Bool
  | .toRoom _ (.fileStructureUpdated _) => true
  | _ => false

/-- The result shape of a successful FILE_UPDATED: the located room's file
list replaced by `fs`, and the full collection broadcast to the room. -/
def updatedPair (st : ServerState) (pre post : List Room) (room : Room)
    (now : Int) (rid : String) (fs : List FileNode) : ServerState × List Emit :=
  ({ st with db := { st.db with rooms := pre ++
      { room with files := fs, updatedAt := now } :: post } },
   [Emit.toRoom rid (EventMsg.fileStructureUpdated fs)])

/-! ## Concrete fixtures used by witnesses and counterexamples -/

def userA : User :=
  { username := "alice", roomId := "r1", status := .online,
    cursorPosition := 0, typing := false, socketId := "A" }

def userB : User :=
  { username := "bob", roomId := "r1", status := .online,
    cursorPosition := 0, typing := false, socketId := "B" }

def userC : User :=
  { username := "carol", roomId := "r1", status := .online,
    cursorPosition := 0, typing := false, socketId := "C" }

def dbUserA : DbUser :=
  { username := "alice", roomId := "r1", status := .online,
    cursorPosition := 0, typing := false, socketId := "A", updatedAt := 100 }

/-- An empty room "r1". -/
def roomR1 : Room :=
  { roomId := "r1", files := [], chatMessages := [], drawing := none,
    lastActivity := 100, updatedAt := 100 }

/-- State with alice joined to the empty room "r1". -/
def stA : ServerState :=
  { db := { rooms := [roomR1], users := [dbUserA], nextOid := 0 },
    userSocketMap := [userA] }

/-- A stored file whose transient id is the UUID "t9" and durable id 0. -/
def fileF0 : FileNode :=
  { _id := 0, name := "a.txt", content := "x", ftype := .file,
    originalId := some (.uuid "t9"), parentId := none,
    parentOriginalId := none }

def roomR1f : Room :=
  { roomId := "r1", files := [fileF0], chatMessages := [], drawing := none,
    lastActivity := 100, updatedAt := 100 }

/-- State with alice, bob and carol joined to room "r1" holding `fileF0`. -/
def stABC : ServerState :=
  { db := { rooms := [roomR1f], users := [dbUserA], nextOid := 1 },
    userSocketMap := [userA, userB, userC] }

/-- FILE_CREATED payload carrying client-minted transient id "t1". -/
def nfT1 : NewFile :=
  { id := some (.uuid "t1"), name := "a.txt", content := some "x" }

/-- DIRECTORY_CREATED payload carrying client-minted transient id "t1". -/
def ndSrc : NewDirectory := { id := some (.uuid "t1"), name := "src" }

/-- FILE_CREATED payload for the C3 scenario file under parent ref "t1". -/
def nfMain : NewFile :=
  { id := some (.uuid "f1"), name := "main.go", content := some "" }

/-- State with alice joined to "r1" while the store has no room document
(e.g. it was reclaimed): used to exercise lazy room creation on join. -/
def stNoRoom : ServerState :=
  { db := { rooms := [], users := [], nextOid := 0 },
    userSocketMap := [userA] }

/-- Room whose document was last updated 31 days before time 100d (its
lastActivity was refreshed 1 day before): the cleanup deletes it. -/
def roomStaleUpd : Room :=
  { roomId := "r-old", files := [], chatMessages := [], drawing := none,
    lastActivity := 99 * msPerDay, updatedAt := 69 * msPerDay }

/-- Room updated 1 day before time 100d: kept. -/
def roomFresh : Room :=
  { roomId := "r-new", files := [], chatMessages := [], drawing := none,
    lastActivity := 99 * msPerDay, updatedAt := 99 * msPerDay }

/-- Room whose lastActivity is 31 days old at time 100d while its document
was updated 1 day before (e.g. only via room.save paths, which never touch
lastActivity): the cleanup KEEPS it, although the claim wants it deleted. -/
def roomStaleLA : Room :=
  { roomId := "r-oldla", files := [], chatMessages := [], drawing := none,
    lastActivity := 69 * msPerDay, updatedAt := 99 * msPerDay }

def uStaleOff : DbUser :=
  { username := "u1", roomId := "r-old", status := .offline,
    cursorPosition := 0, typing := false, socketId := "s1",
    updatedAt := 97 * msPerDay }

def uFreshOff : DbUser :=
  { username := "u2", roomId := "r-new", status := .offline,
    cursorPosition := 0, typing := false, socketId := "s2",
    updatedAt := 100 * msPerDay - 1 }

def dbC9 : DB := { rooms := [roomStaleLA], users := [], nextOid := 0 }

def dbC9w : DB :=
  { rooms := [roomStaleUpd, roomFresh, roomStaleLA],
    users := [uStaleOff, uFreshOff], nextOid := 0 }

/-! ## List lemmas for the store model -/

theorem updateFirst_all_false (p : α → Bool) (g : α → α) (l : List α)
    (h : ∀ a ∈ l, p a = false) : updateFirst p g l = (l, false) := by
  induction l with
  | nil => rfl
  | cons a as ih =>
    have ha := h a (by simp)
    simp [updateFirst, ha, ih fun x hx => h x (by simp [hx])]

theorem updateFirst_append_first (p : α → Bool) (g : α → α)
    (pre post : List α) (a : α)
    (hpre : ∀ x ∈ pre, p x = false) (ha : p a = true) :
    updateFirst p g (pre ++ a :: post) = (pre ++ g a :: post, true) := by
  induction pre with
  | nil => simp [updateFirst, ha]
  | cons x xs ih =>
    have hx := hpre x (by simp)
    simp [updateFirst, hx, ih fun y hy => hpre y (by simp [hy])]

theorem find?_append_first (p : α → Bool) (pre post : List α) (a : α)
    (hpre : ∀ x ∈ pre, p x = false) (ha : p a = true) :
    List.find? p (pre ++ a :: post) = some a := by
  induction pre with
  | nil => simp [List.find?, ha]
  | cons x xs ih =>
    have hx := hpre x (by simp)
    simp [List.find?, hx, ih fun y hy => hpre y (by simp [hy])]

theorem find?_all_false (p : α → Bool) (l : List α)
    (h : ∀ a ∈ l, p a = false) : List.find? p l = none := by
  induction l with
  | nil => rfl
  | cons a as ih =>
    have ha := h a (by simp)
    simp [List.find?, ha, ih fun x hx => h x (by simp [hx])]

theorem updateFirst_of_findIdxP_some (p : α → Bool) (g : α → α) (l : List α)
    (i : Nat) (h : findIdxP p l = some i) :
    updateFirst p g l = (applyIdx g l i, true) := by
  induction l generalizing i with
  | nil => simp [findIdxP] at h
  | cons a as ih =>
    by_cases ha : p a = true
    · simp [findIdxP, ha] at h
      subst h
      simp [updateFirst, applyIdx, ha]
    · have ha' : p a = false := by simpa using ha
      simp [findIdxP, ha'] at h
      obtain ⟨j, hj, rfl⟩ := h
      simp [updateFirst, applyIdx, ha', ih j hj]

theorem updateFirst_of_findIdxP_none (p : α → Bool) (g : α → α) (l : List α)
    (h : findIdxP p l = none) : updateFirst p g l = (l, false) := by
  induction l with
  | nil => rfl
  | cons a as ih =>
    by_cases ha : p a = true
    · simp [findIdxP, ha] at h
    · have ha' : p a = false := by simpa using ha
      simp [findIdxP, ha'] at h
      simp [updateFirst, ha', ih h]

theorem any_eq_isSome_findIdxP (p : α → Bool) (l : List α) :
    l.any p = (findIdxP p l).isSome := by
  induction l with
  | nil => rfl
  | cons a as ih =>
    cases ha : p a with
    | true => simp [findIdxP, ha]
    | false =>
      simp only [List.any_cons, ha, Bool.false_or, findIdxP, if_neg (by simp [ha] : ¬ p a = true)]
      rw [ih]
      cases h : findIdxP p as <;> simp [h]

theorem findIdxP_all_false (p : α → Bool) (l : List α)
    (h : ∀ a ∈ l, p a = false) : findIdxP p l = none := by
  induction l with
  | nil => rfl
  | cons a as ih =>
    have ha := h a (by simp)
    simp [findIdxP, ha, ih fun x hx => h x (by simp [hx])]

theorem findIdxP_append_last (p : α → Bool) (l : List α) (a : α)
    (hl : ∀ x ∈ l, p x = false) (ha : p a = true) :
    findIdxP p (l ++ [a]) = some l.length := by
  induction l with
  | nil => simp [findIdxP, ha]
  | cons x xs ih =>
    have hx := hl x (by simp)
    simp [findIdxP, hx, ih fun y hy => hl y (by simp [hy])]

theorem applyIdx_append_length (g : α → α) (l : List α) (a : α) :
    applyIdx g (l ++ [a]) l.length = l ++ [g a] := by
  induction l with
  | nil => simp [applyIdx]
  | cons x xs ih => simp [applyIdx, ih]

theorem map_if_no_match (p : α → Bool) (g : α → α) (l : List α)
    (h : ∀ a ∈ l, p a = false) :
    (l.map fun a => if p a then g a else a) = l := by
  induction l with
  | nil => rfl
  | cons a as ih =>
    have ha := h a (by simp)
    simp [ha, ih fun x hx => h x (by simp [hx])]

/-! ## Basic lemmas about the embedding -/

theorem all_false_append_cons {p : α → Bool} {pre post : List α} {a : α}
    (hpre : ∀ x ∈ pre, p x = false) (ha : p a = false)
    (hpost : ∀ x ∈ post, p x = false) :
    ∀ x ∈ pre ++ a :: post, p x = false := by
  intro x hx
  rcases List.mem_append.mp hx with h | h
  · exact hpre x h
  · rcases List.mem_cons.mp h with rfl | h
    · exact ha
    · exact hpost x h

theorem fileSaveHook_id (f : FileNode) : (fileSaveHook f)._id = f._id := by
  unfold fileSaveHook
  repeat' split
  all_goals rfl

theorem fileSaveHook_originalId (f : FileNode) :
    (fileSaveHook f).originalId = f.originalId := by
  unfold fileSaveHook
  repeat' split
  all_goals rfl

theorem fileSaveHook_name (f : FileNode) : (fileSaveHook f).name = f.name := by
  unfold fileSaveHook
  repeat' split
  all_goals rfl

theorem fileSaveHook_content (f : FileNode) :
    (fileSaveHook f).content = f.content := by
  unfold fileSaveHook
  repeat' split
  all_goals rfl

theorem getRoomId_set_db (st : ServerState) (d : DB) (sid : String) :
    getRoomId { st with db := d } sid = getRoomId st sid := rfl

theorem getRoomId_some (st : ServerState) (sid rid : String)
    (h : getRoomId st sid = some rid) :
    ∃ u ∈ st.userSocketMap, (u.socketId == sid) = true ∧ u.roomId = rid := by
  unfold getRoomId at h
  cases hf : st.userSocketMap.find? (fun u => u.socketId == sid) with
  | none => rw [hf] at h; simp at h
  | some u =>
    rw [hf] at h
    simp only [Option.map_some'] at h
    have hmem := List.mem_of_find?_eq_some hf
    have hbeq := List.find?_some hf
    by_cases he : (u.roomId == "") = true
    · simp [he] at h
    · simp only [he, Bool.false_eq_true, if_false, Option.some.injEq] at h
      exact ⟨u, hmem, hbeq, h⟩

theorem memberB_of_getRoomId (st : ServerState) (sid rid : String)
    (h : getRoomId st sid = some rid) :
    memberB st.userSocketMap sid rid = true := by
  obtain ⟨u, hmem, hbeq, hrid⟩ := getRoomId_some st sid rid h
  unfold memberB
  rw [List.any_eq_true]
  exact ⟨u, hmem, by simp [hbeq, hrid]⟩

/-! ## Characterization of the store operations under a located room -/

theorem renameNodeOp_uuid (db : DB) (rid : String) (nodeId : IdStr)
    (newName : String) (now : Int) (h : parseOid nodeId = none) :
    renameNodeOp db rid nodeId newName now = db := by
  simp [renameNodeOp, h]

theorem renameNodeOp_hit (db : DB) (rid : String) (oid : Nat)
    (newName : String) (now : Int) (pre post : List Room) (room : Room) (i : Nat)
    (hdec : db.rooms = pre ++ room :: post)
    (hpre : ∀ x ∈ pre, (x.roomId == rid) = false)
    (hroom : room.roomId = rid)
    (hidx : findIdxP (fun f => f._id == oid) room.files = some i) :
    renameNodeOp db rid (oidToStr oid) newName now =
      { db with rooms := pre ++
          { room with
            files := applyIdx (fun f => { f with name := newName }) room.files i,
            updatedAt := now } :: post } := by
  have hany : (room.files.any fun f => f._id == oid) = true := by
    rw [any_eq_isSome_findIdxP, hidx]; rfl
  have hupd := updateFirst_append_first
    (fun r => r.roomId == rid && r.files.any fun f => f._id == oid)
    (fun r =>
      { r with
        files := (updateFirst (fun f => f._id == oid)
          (fun f => { f with name := newName }) r.files).1,
        updatedAt := now })
    pre post room (fun x hx => by simp [hpre x hx]) (by simp [hroom, hany])
  have hfiles := updateFirst_of_findIdxP_some
    (fun f => f._id == oid) (fun f => { f with name := newName }) room.files i hidx
  simp [renameNodeOp, oidToStr, parseOid, dbUpdateOneRoom, hdec, hupd, hfiles]

theorem renameNodeOp_miss (db : DB) (rid : String) (oid : Nat)
    (newName : String) (now : Int) (pre post : List Room) (room : Room)
    (hdec : db.rooms = pre ++ room :: post)
    (hpre : ∀ x ∈ pre, (x.roomId == rid) = false)
    (hroom : room.roomId = rid)
    (hpost : ∀ x ∈ post, (x.roomId == rid) = false)
    (hidx : findIdxP (fun f => f._id == oid) room.files = none) :
    renameNodeOp db rid (oidToStr oid) newName now = db := by
  have hany : (room.files.any fun f => f._id == oid) = false := by
    rw [any_eq_isSome_findIdxP, hidx]; rfl
  have hall : ∀ x ∈ pre ++ room :: post,
      ((fun r => r.roomId == rid && r.files.any fun f => f._id == oid) x) = false :=
    all_false_append_cons (fun x hx => by simp [hpre x hx]) (by simp [hany])
      (fun x hx => by simp [hpost x hx])
  have hupd := updateFirst_all_false
    (fun r => r.roomId == rid && r.files.any fun f => f._id == oid)
    (fun r =>
      { r with
        files := (updateFirst (fun f => f._id == oid)
          (fun f => { f with name := newName }) r.files).1,
        updatedAt := now })
    (pre ++ room :: post) hall
  simp [renameNodeOp, oidToStr, parseOid, dbUpdateOneRoom, hdec, hupd]
  rw [← hdec]

theorem deleteNodeOp_uuid (db : DB) (rid : String) (nodeId : IdStr)
    (now : Int) (h : parseOid nodeId = none) :
    deleteNodeOp db rid nodeId now = db := by
  simp [deleteNodeOp, h]

theorem deleteNodeOp_oid (db : DB) (rid : String) (oid : Nat) (now : Int)
    (pre post : List Room) (room : Room)
    (hdec : db.rooms = pre ++ room :: post)
    (hpre : ∀ x ∈ pre, (x.roomId == rid) = false)
    (hroom : room.roomId = rid) :
    deleteNodeOp db rid (oidToStr oid) now =
      { db with rooms := pre ++
          { room with files := room.files.filter fun f => !(f._id == oid),
                      updatedAt := now } :: post } := by
  have hupd := updateFirst_append_first
    (fun r => r.roomId == rid)
    (fun r =>
      { r with files := r.files.filter fun f => !(f._id == oid),
               updatedAt := now })
    pre post room hpre (by simp [hroom])
  simp [deleteNodeOp, oidToStr, parseOid, dbUpdateOneRoom, hdec, hupd]

theorem dbFindRoom_located (db : DB) (rid : String)
    (pre post : List Room) (room : Room)
    (hdec : db.rooms = pre ++ room :: post)
    (hpre : ∀ x ∈ pre, (x.roomId == rid) = false)
    (hroom : room.roomId = rid) :
    dbFindRoom db rid = some room := by
  unfold dbFindRoom
  rw [hdec]
  exact find?_append_first _ pre post room hpre (by simp [hroom])

theorem dbReplaceRoom_located (db : DB) (rid : String) (r1 : Room)
    (pre post : List Room) (room : Room)
    (hdec : db.rooms = pre ++ room :: post)
    (hpre : ∀ x ∈ pre, (x.roomId == rid) = false)
    (hroom : room.roomId = rid) :
    dbReplaceRoom db rid r1 = { db with rooms := pre ++ r1 :: post } := by
  unfold dbReplaceRoom
  rw [hdec, updateFirst_append_first _ _ pre post room hpre (by simp [hroom])]

theorem fileCreated_char (st : ServerState) (now : Int) (sid rid : String)
    (pre post : List Room) (room : Room)
    (parentDirId : Option IdStr) (newFile : NewFile)
    (hjoin : getRoomId st sid = some rid)
    (hdec : st.db.rooms = pre ++ room :: post)
    (hpre : ∀ x ∈ pre, (x.roomId == rid) = false)
    (hroom : room.roomId = rid) :
    fileCreated st now sid parentDirId newFile =
      ({ st with db :=
          { st.db with
            rooms := pre ++
              { room with
                files := (room.files ++
                  [mkFileObj st.db.nextOid room parentDirId newFile]).map fileSaveHook,
                updatedAt := now } :: post,
            nextOid := st.db.nextOid + 1 } },
       [Emit.broadcastToRoom sid rid
          (.fileCreatedEv parentDirId newFile st.db.nextOid)]) := by
  have hfind := dbFindRoom_located st.db rid pre post room hdec hpre hroom
  have hrepl := dbReplaceRoom_located st.db rid
    (roomSave now { room with
      files := room.files ++ [mkFileObj st.db.nextOid room parentDirId newFile] })
    pre post room hdec hpre hroom
  simp only [fileCreated, hjoin, hfind]
  rw [hrepl]
  simp [roomSave]

theorem directoryCreated_char (st : ServerState) (now : Int) (sid rid : String)
    (pre post : List Room) (room : Room)
    (parentDirId : Option IdStr) (newDirectory : NewDirectory)
    (hjoin : getRoomId st sid = some rid)
    (hdec : st.db.rooms = pre ++ room :: post)
    (hpre : ∀ x ∈ pre, (x.roomId == rid) = false)
    (hroom : room.roomId = rid) :
    directoryCreated st now sid parentDirId newDirectory =
      ({ st with db :=
          { st.db with
            rooms := pre ++
              { room with
                files := (room.files ++
                  [mkDirObj st.db.nextOid parentDirId newDirectory.name]).map fileSaveHook,
                updatedAt := now } :: post,
            nextOid := st.db.nextOid + 1 } },
       [Emit.broadcastToRoom sid rid
          (.directoryCreatedEv parentDirId newDirectory)]) := by
  have hfind := dbFindRoom_located st.db rid pre post room hdec hpre hroom
  have hrepl := dbReplaceRoom_located st.db rid
    (roomSave now { room with
      files := room.files ++ [mkDirObj st.db.nextOid parentDirId newDirectory.name] })
    pre post room hdec hpre hroom
  simp only [directoryCreated, hjoin, hfind]
  rw [hrepl]
  simp [roomSave]

theorem fileRenamed_char (st : ServerState) (now : Int) (sid rid : String)
    (fileId : IdStr) (newName : String)
    (hjoin : getRoomId st sid = some rid) :
    fileRenamed st now sid fileId newName =
      ({ st with db := renameNodeOp st.db rid fileId newName now },
       [Emit.broadcastToRoom sid rid (.fileRenamedEv fileId newName)]) := by
  simp [fileRenamed, hjoin]

theorem fileDeleted_char (st : ServerState) (now : Int) (sid rid : String)
    (fileId : IdStr)
    (hjoin : getRoomId st sid = some rid) :
    fileDeleted st now sid fileId =
      ({ st with db := deleteNodeOp st.db rid fileId now },
       [Emit.broadcastToRoom sid rid (.fileDeletedEv fileId)]) := by
  simp [fileDeleted, hjoin]

theorem fileUpdated_tier1 (st : ServerState) (now : Int) (sid rid : String)
    (pre post : List Room) (room : Room) (fid : IdStr) (c : String)
    (oid : Nat) (i : Nat)
    (hjoin : getRoomId st sid = some rid)
    (hdec : st.db.rooms = pre ++ room :: post)
    (hpre : ∀ x ∈ pre, (x.roomId == rid) = false)
    (hroom : room.roomId = rid)
    (hp : parseOid fid = some oid)
    (h1 : findIdxP (fun f => f._id == oid) room.files = some i) :
    fileUpdated st now sid fid c =
      ({ st with db := { st.db with rooms := pre ++
          { room with
            files := applyIdx (fun f => { f with content := c }) room.files i,
            updatedAt := now } :: post } },
       [Emit.toRoom rid (EventMsg.fileStructureUpdated
          (applyIdx (fun f => { f with content := c }) room.files i))]) := by
  have hany : (room.files.any fun f => f._id == oid) = true := by
    rw [any_eq_isSome_findIdxP, h1]; rfl
  have hfiles := updateFirst_of_findIdxP_some (fun f => f._id == oid)
    (fun f => { f with content := c }) room.files i h1
  have hupd := updateFirst_append_first
    (fun r => r.roomId == rid && r.files.any fun f => f._id == oid)
    (fun r =>
      { r with
        files := (updateFirst (fun f => f._id == oid)
          (fun f => { f with content := c }) r.files).1,
        updatedAt := now })
    pre post room (fun x hx => by simp [hpre x hx]) (by simp [hroom, hany])
  have hfind2 := dbFindRoom_located
    { st.db with rooms := pre ++
        { room with
          files := applyIdx (fun f => { f with content := c }) room.files i,
          updatedAt := now } :: post }
    rid pre post
    { room with
      files := applyIdx (fun f => { f with content := c }) room.files i,
      updatedAt := now }
    rfl hpre hroom
  simp only [fileUpdated, hjoin, hp, dbUpdateOneRoom, hdec, hupd, hfiles,
    emitRefresh, hfind2]
  simp

theorem fileUpdated_tier2 (st : ServerState) (now : Int) (sid rid : String)
    (pre post : List Room) (room : Room) (fid : IdStr) (c : String) (i : Nat)
    (hjoin : getRoomId st sid = some rid)
    (hdec : st.db.rooms = pre ++ room :: post)
    (hpre : ∀ x ∈ pre, (x.roomId == rid) = false)
    (hroom : room.roomId = rid)
    (hpost : ∀ x ∈ post, (x.roomId == rid) = false)
    (hd : findIdxDurable room.files fid = none)
    (ht : findIdxP (fun f => f.originalId == some fid) room.files = some i) :
    fileUpdated st now sid fid c =
      ({ st with db := { st.db with rooms := pre ++
          { room with
            files := applyIdx (fun f => { f with content := c }) room.files i,
            updatedAt := now } :: post } },
       [Emit.toRoom rid (EventMsg.fileStructureUpdated
          (applyIdx (fun f => { f with content := c }) room.files i))]) := by
  have hany2 : (room.files.any fun f => f.originalId == some fid) = true := by
    rw [any_eq_isSome_findIdxP, ht]; rfl
  have hfiles2 := updateFirst_of_findIdxP_some (fun f => f.originalId == some fid)
    (fun f => { f with content := c }) room.files i ht
  have hupd2 := updateFirst_append_first
    (fun r => r.roomId == rid && r.files.any fun f => f.originalId == some fid)
    (fun r =>
      { r with
        files := (updateFirst (fun f => f.originalId == some fid)
          (fun f => { f with content := c }) r.files).1,
        updatedAt := now })
    pre post room (fun x hx => by simp [hpre x hx]) (by simp [hroom, hany2])
  have hfindlist := find?_append_first (fun r : Room => r.roomId == rid) pre post
    { room with
      files := applyIdx (fun f => { f with content := c }) room.files i,
      updatedAt := now }
    hpre (by simp [hroom])
  cases hp : parseOid fid with
  | none =>
    simp only [fileUpdated, hjoin, hp, dbUpdateOneRoom, hdec, hupd2, hfiles2,
      emitRefresh, dbFindRoom, hfindlist]
    simp
  | some oid =>
    have hidx1 : findIdxP (fun f => f._id == oid) room.files = none := by
      simpa [findIdxDurable, hp] using hd
    have hany1 : (room.files.any fun f => f._id == oid) = false := by
      rw [any_eq_isSome_findIdxP, hidx1]; rfl
    have hall1 : ∀ x ∈ pre ++ room :: post,
        ((fun r => r.roomId == rid && r.files.any fun f => f._id == oid) x) = false :=
      all_false_append_cons (fun x hx => by simp [hpre x hx]) (by simp [hany1])
        (fun x hx => by simp [hpost x hx])
    have hupd1 := updateFirst_all_false
      (fun r => r.roomId == rid && r.files.any fun f => f._id == oid)
      (fun r =>
        { r with
          files := (updateFirst (fun f => f._id == oid)
            (fun f => { f with content := c }) r.files).1,
          updatedAt := now })
      (pre ++ room :: post) hall1
    simp only [fileUpdated, hjoin, hp, dbUpdateOneRoom, hdec, hupd1, hupd2,
      hfiles2, emitRefresh, dbFindRoom, hfindlist]
    simp

theorem fileUpdated_tier3 (st : ServerState) (now : Int) (sid rid : String)
    (pre post : List Room) (room : Room) (fid : IdStr) (c : String) (i : Nat)
    (hjoin : getRoomId st sid = some rid)
    (hdec : st.db.rooms = pre ++ room :: post)
    (hpre : ∀ x ∈ pre, (x.roomId == rid) = false)
    (hroom : room.roomId = rid)
    (hpost : ∀ x ∈ post, (x.roomId == rid) = false)
    (hd : findIdxDurable room.files fid = none)
    (ht : findIdxP (fun f => f.originalId == some fid) room.files = none)
    (hs : findIdxP (fun f => oidToStr f._id == fid || f.originalId == some fid)
      room.files = some i) :
    fileUpdated st now sid fid c =
      ({ st with db := { st.db with rooms := pre ++
          { room with
            files := (applyIdx (fun f => { f with content := c })
              room.files i).map fileSaveHook,
            updatedAt := now } :: post } },
       [Emit.toRoom rid (EventMsg.fileStructureUpdated
          ((applyIdx (fun f => { f with content := c })
            room.files i).map fileSaveHook))]) := by
  have hany2 : (room.files.any fun f => f.originalId == some fid) = false := by
    rw [any_eq_isSome_findIdxP, ht]; rfl
  have hall2 : ∀ x ∈ pre ++ room :: post,
      ((fun r => r.roomId == rid && r.files.any fun f => f.originalId == some fid) x) = false :=
    all_false_append_cons (fun x hx => by simp [hpre x hx]) (by simp [hany2])
      (fun x hx => by simp [hpost x hx])
  have hupd2 := updateFirst_all_false
    (fun r => r.roomId == rid && r.files.any fun f => f.originalId == some fid)
    (fun r =>
      { r with
        files := (updateFirst (fun f => f.originalId == some fid)
          (fun f => { f with content := c }) r.files).1,
        updatedAt := now })
    (pre ++ room :: post) hall2
  have hfindroom := find?_append_first (fun r : Room => r.roomId == rid) pre post
    room hpre (by simp [hroom])
  have hfindlist := find?_append_first (fun r : Room => r.roomId == rid) pre post
    { room with
      files := (applyIdx (fun f => { f with content := c })
        room.files i).map fileSaveHook,
      updatedAt := now }
    hpre (by simp [hroom])
  have hrepl := dbReplaceRoom_located { st.db with rooms := pre ++ room :: post } rid
    { room with
      files := (applyIdx (fun f => { f with content := c })
        room.files i).map fileSaveHook,
      updatedAt := now }
    pre post room rfl hpre hroom
  cases hp : parseOid fid with
  | none =>
    simp only [fileUpdated, hjoin, hp, dbUpdateOneRoom, hdec, hupd2, hs,
      roomSave, dbFindRoom, hfindroom, hfindlist, hrepl, emitRefresh]
    simp
  | some oid =>
    have hidx1 : findIdxP (fun f => f._id == oid) room.files = none := by
      simpa [findIdxDurable, hp] using hd
    have hany1 : (room.files.any fun f => f._id == oid) = false := by
      rw [any_eq_isSome_findIdxP, hidx1]; rfl
    have hall1 : ∀ x ∈ pre ++ room :: post,
        ((fun r => r.roomId == rid && r.files.any fun f => f._id == oid) x) = false :=
      all_false_append_cons (fun x hx => by simp [hpre x hx]) (by simp [hany1])
        (fun x hx => by simp [hpost x hx])
    have hupd1 := updateFirst_all_false
      (fun r => r.roomId == rid && r.files.any fun f => f._id == oid)
      (fun r =>
        { r with
          files := (updateFirst (fun f => f._id == oid)
            (fun f => { f with content := c }) r.files).1,
          updatedAt := now })
      (pre ++ room :: post) hall1
    simp only [fileUpdated, hjoin, hp, dbUpdateOneRoom, hdec, hupd1, hupd2, hs,
      roomSave, dbFindRoom, hfindroom, hfindlist, hrepl, emitRefresh]
    simp

theorem fileUpdated_miss (st : ServerState) (now : Int) (sid rid : String)
    (pre post : List Room) (room : Room) (fid : IdStr) (c : String)
    (hjoin : getRoomId st sid = some rid)
    (hdec : st.db.rooms = pre ++ room :: post)
    (hpre : ∀ x ∈ pre, (x.roomId == rid) = false)
    (hroom : room.roomId = rid)
    (hpost : ∀ x ∈ post, (x.roomId == rid) = false)
    (hd : findIdxDurable room.files fid = none)
    (ht : findIdxP (fun f => f.originalId == some fid) room.files = none)
    (hs : findIdxP (fun f => oidToStr f._id == fid || f.originalId == some fid)
      room.files = none) :
    fileUpdated st now sid fid c = (st, []) := by
  have hany2 : (room.files.any fun f => f.originalId == some fid) = false := by
    rw [any_eq_isSome_findIdxP, ht]; rfl
  have hall2 : ∀ x ∈ pre ++ room :: post,
      ((fun r => r.roomId == rid && r.files.any fun f => f.originalId == some fid) x) = false :=
    all_false_append_cons (fun x hx => by simp [hpre x hx]) (by simp [hany2])
      (fun x hx => by simp [hpost x hx])
  have hupd2 := updateFirst_all_false
    (fun r => r.roomId == rid && r.files.any fun f => f.originalId == some fid)
    (fun r =>
      { r with
        files := (updateFirst (fun f => f.originalId == some fid)
          (fun f => { f with content := c }) r.files).1,
        updatedAt := now })
    (pre ++ room :: post) hall2
  have hfindroom := find?_append_first (fun r : Room => r.roomId == rid) pre post
    room hpre (by simp [hroom])
  cases hp : parseOid fid with
  | none =>
    simp only [fileUpdated, hjoin, hp, dbUpdateOneRoom, hdec, hupd2,
      dbFindRoom, hfindroom, hs]
    rw [← hdec]
    simp
  | some oid =>
    have hidx1 : findIdxP (fun f => f._id == oid) room.files = none := by
      simpa [findIdxDurable, hp] using hd
    have hany1 : (room.files.any fun f => f._id == oid) = false := by
      rw [any_eq_isSome_findIdxP, hidx1]; rfl
    have hall1 : ∀ x ∈ pre ++ room :: post,
        ((fun r => r.roomId == rid && r.files.any fun f => f._id == oid) x) = false :=
      all_false_append_cons (fun x hx => by simp [hpre x hx]) (by simp [hany1])
        (fun x hx => by simp [hpost x hx])
    have hupd1 := updateFirst_all_false
      (fun r => r.roomId == rid && r.files.any fun f => f._id == oid)
      (fun r =>
        { r with
          files := (updateFirst (fun f => f._id == oid)
            (fun f => { f with content := c }) r.files).1,
          updatedAt := now })
      (pre ++ room :: post) hall1
    simp only [fileUpdated, hjoin, hp, dbUpdateOneRoom, hdec, hupd1, hupd2,
      dbFindRoom, hfindroom, hs]
    rw [← hdec]
    simp

/-! ## JOIN_REQUEST characterization in the duplicate-username case -/

theorem joinRequest_dup_char (st : ServerState) (now : Int)
    (sid rid un : String) (u0 : User)
    (hu : u0 ∈ st.userSocketMap) (hur : u0.roomId = rid) (hun : u0.username = un) :
    joinRequest st now sid rid un =
      ({ st with db := { st.db with
          rooms :=
            (match dbFindRoom st.db rid with
             | some _ => st.db.rooms
             | none => st.db.rooms ++ [freshRoom rid now]),
          users := st.db.users ++
            [{ username := un, roomId := rid, status := .online,
               cursorPosition := 0, typing := false, socketId := sid,
               updatedAt := now }] } },
       [Emit.toSocket sid .usernameExists]) := by
  have h1 : u0 ∈ getUsersInRoom st.userSocketMap rid :=
    List.mem_filter.mpr ⟨hu, by simp [hur]⟩
  have h2 : u0 ∈ (getUsersInRoom st.userSocketMap rid).filter
      fun u => u.username == un :=
    List.mem_filter.mpr ⟨h1, by simp [hun]⟩
  have hlen : ((getUsersInRoom st.userSocketMap rid).filter
      fun u => u.username == un).length > 0 :=
    List.length_pos_of_mem h2
  simp only [joinRequest]
  rw [if_pos hlen]

/-! ## Events from unjoined connections -/

theorem getRoomId_none_of_unjoined (st : ServerState) (sid : String)
    (h : ∀ u ∈ st.userSocketMap, (u.socketId == sid) = false) :
    getRoomId st sid = none := by
  unfold getRoomId
  rw [find?_all_false _ _ h]
  rfl

theorem getUserBySocketId_none_of_unjoined (st : ServerState) (sid : String)
    (h : ∀ u ∈ st.userSocketMap, (u.socketId == sid) = false) :
    getUserBySocketId st sid = none := by
  unfold getUserBySocketId
  exact find?_all_false _ _ h

/-! ## Claim theorems -/

/-- C4: the FILE_UPDATED handler resolves its target in exactly three
tiers, first durable-id equality, then transient-id equality, then a
last-resort linear scan comparing stringified ids, with the first
successful tier short-circuiting the rest; the node's content is updated
(and the refreshed collection broadcast) whenever any tier matches, and
the operation is a silent no-op, leaving the state unchanged and emitting
nothing, when all three tiers miss. -/
theorem C4_updateContent_three_tier
    (st : ServerState) (now : Int) (sid rid : String)
    (pre post : List Room) (room : Room) (fid : IdStr) (c : String)
    (hjoin : getRoomId st sid = some rid)
    (hdec : st.db.rooms = pre ++ room :: post)
    (hpre : ∀ x ∈ pre, (x.roomId == rid) = false)
    (hroom : room.roomId = rid)
    (hpost : ∀ x ∈ post, (x.roomId == rid) = false) :
    (∀ i, findIdxDurable room.files fid = some i →
      fileUpdated st now sid fid c =
        updatedPair st pre post room now rid
          (applyIdx (fun f => { f with content := c }) room.files i)) ∧
    (findIdxDurable room.files fid = none →
      ∀ i, findIdxTransient room.files fid = some i →
      fileUpdated st now sid fid c =
        updatedPair st pre post room now rid
          (applyIdx (fun f => { f with content := c }) room.files i)) ∧
    (findIdxDurable room.files fid = none →
      findIdxTransient room.files fid = none →
      ∀ i, findIdxScan room.files fid = some i →
      fileUpdated st now sid fid c =
        updatedPair st pre post room now rid
          ((applyIdx (fun f => { f with content := c }) room.files i).map
            fileSaveHook)) ∧
    (findIdxDurable room.files fid = none →
      findIdxTransient room.files fid = none →
      findIdxScan room.files fid = none →
      fileUpdated st now sid fid c = (st, [])) := by
  refine ⟨?_, ?_, ?_, ?_⟩
  · intro i hi
    cases hp : parseOid fid with
    | none => rw [findIdxDurable, hp] at hi; cases hi
    | some oid =>
      rw [findIdxDurable, hp] at hi
      exact fileUpdated_tier1 st now sid rid pre post room fid c oid i
        hjoin hdec hpre hroom hp hi
  · intro hd i hi
    exact fileUpdated_tier2 st now sid rid pre post room fid c i
      hjoin hdec hpre hroom hpost hd hi
  · intro hd ht i hi
    exact fileUpdated_tier3 st now sid rid pre post room fid c i
      hjoin hdec hpre hroom hpost hd ht hi
  · intro hd ht hs
    exact fileUpdated_miss st now sid rid pre post room fid c
      hjoin hdec hpre hroom hpost hd ht hs

/-- Witness for C4: in the three-member room state, bob updates `fileF0`
through its transient id "t9"; tier 1 misses (a UUID is no ObjectId),
tier 2 locates the node, and the update plus full refresh happen. -/
theorem C4_updateContent_three_tier_witness :
    (getRoomId stABC "B" = some "r1") ∧
    (stABC.db.rooms = [] ++ roomR1f :: []) ∧
    (findIdxDurable roomR1f.files (IdStr.uuid "t9") = none) ∧
    (findIdxTransient roomR1f.files (IdStr.uuid "t9") = some 0) ∧
    (fileUpdated stABC 7 "B" (IdStr.uuid "t9") "new" =
      updatedPair stABC [] [] roomR1f 7 "r1"
        (applyIdx (fun f => { f with content := "new" }) roomR1f.files 0)) := by
  refine ⟨rfl, rfl, rfl, rfl, ?_⟩
  exact (C4_updateContent_three_tier stABC 7 "B" "r1" [] [] roomR1f
    (IdStr.uuid "t9") "new" rfl rfl (by simp) rfl (by simp)).2.1 rfl 0 rfl

/-- C1 counterexample: alice creates a file with transient id "t1" in room
"r1"; the FILE_RENAMED handler invoked with only that transient id leaves
the whole server state unchanged (the node is not located), refuting the
claim that the rename handler must locate the node by transient id. -/
theorem C1_rename_by_transient_counterexample :
    ((fileCreated stA 5 "A" none nfT1).1.db.rooms.map
        fun r => r.files.map fun f => (f.name, f.originalId))
      = [[("a.txt", some (IdStr.uuid "t1"))]] ∧
    (fileRenamed (fileCreated stA 5 "A" none nfT1).1 6 "A"
        (IdStr.uuid "t1") "b.txt").1
      = (fileCreated stA 5 "A" none nfT1).1 := by
  exact ⟨rfl, rfl⟩

/-- C1 amended: after a create carrying a fresh transient id, the stored
node is resolvable by either its durable id or its transient id through
the reconciliation used by the update path; but the rename and delete
handlers match solely on the durable id: invoked with only the transient
id they are silent no-ops on the store, while invoked with the durable id
they rename and remove the node as expected. -/
theorem C1_lifecycle_amended
    (st : ServerState) (now now2 : Int) (sid rid : String)
    (pre post : List Room) (room : Room)
    (t nm ct nm2 : String)
    (hjoin : getRoomId st sid = some rid)
    (hdec : st.db.rooms = pre ++ room :: post)
    (hpre : ∀ x ∈ pre, (x.roomId == rid) = false)
    (hroom : room.roomId = rid)
    (hfresh : ∀ f ∈ room.files, (f._id == st.db.nextOid) = false)
    (htuniq : ∀ f ∈ room.files, (f.originalId == some (IdStr.uuid t)) = false)
    (ht : (t == "") = false) :
    ∃ room1,
      dbFindRoom (fileCreated st now sid none
          { id := some (.uuid t), name := nm, content := some ct }).1.db rid
        = some room1 ∧
      room1.files = (room.files ++
        [mkFileObj st.db.nextOid room none
          { id := some (.uuid t), name := nm, content := some ct }]).map
            fileSaveHook ∧
      resolveThreeTier room1.files (IdStr.uuid t) = some room.files.length ∧
      resolveThreeTier room1.files (oidToStr st.db.nextOid)
        = some room.files.length ∧
      (fileRenamed (fileCreated st now sid none
          { id := some (.uuid t), name := nm, content := some ct }).1
          now2 sid (IdStr.uuid t) nm2).1
        = (fileCreated st now sid none
          { id := some (.uuid t), name := nm, content := some ct }).1 ∧
      (∃ room2,
        dbFindRoom (fileRenamed (fileCreated st now sid none
            { id := some (.uuid t), name := nm, content := some ct }).1
            now2 sid (oidToStr st.db.nextOid) nm2).1.db rid = some room2 ∧
        room2.files.map (fun f => f.name)
          = room.files.map (fun f => f.name) ++ [nm2]) ∧
      (fileDeleted (fileCreated st now sid none
          { id := some (.uuid t), name := nm, content := some ct }).1
          now2 sid (IdStr.uuid t)).1
        = (fileCreated st now sid none
          { id := some (.uuid t), name := nm, content := some ct }).1 ∧
      (∃ room3,
        dbFindRoom (fileDeleted (fileCreated st now sid none
            { id := some (.uuid t), name := nm, content := some ct }).1
            now2 sid (oidToStr st.db.nextOid)).1.db rid = some room3 ∧
        room3.files = room.files.map fileSaveHook) := by
  have hchar := fileCreated_char st now sid rid pre post room none
    { id := some (.uuid t), name := nm, content := some ct } hjoin hdec hpre hroom
  set nf : NewFile := { id := some (.uuid t), name := nm, content := some ct } with hnf
  set n1 : FileNode := mkFileObj st.db.nextOid room none nf with hn1
  set room1 : Room :=
    { room with files := (room.files ++ [n1]).map fileSaveHook, updatedAt := now }
    with hroom1
  set db1 : DB :=
    { st.db with rooms := pre ++ room1 :: post, nextOid := st.db.nextOid + 1 }
    with hdb1
  have hst1 : (fileCreated st now sid none nf).1 = { st with db := db1 } := by
    rw [hchar]
  have hjoin1 : getRoomId { st with db := db1 } sid = some rid := by
    rw [getRoomId_set_db]; exact hjoin
  -- the appended file list, split into its two halves
  have hsplit : room1.files
      = room.files.map fileSaveHook ++ [fileSaveHook n1] := by
    simp [hroom1, List.map_append]
  -- originalId of the new node is the transient id
  have hn1orig : n1.originalId = some (IdStr.uuid t) := by
    simp [hn1, mkFileObj, optIdOrNull, idTruthy, ht]
  have hn1id : n1._id = st.db.nextOid := by simp [hn1, mkFileObj]
  -- the transient-id scan over the old nodes misses
  have hlpreT : ∀ x ∈ room.files.map fileSaveHook,
      (x.originalId == some (IdStr.uuid t)) = false := by
    intro x hx
    obtain ⟨f, hf, rfl⟩ := List.mem_map.mp hx
    rw [fileSaveHook_originalId]
    exact htuniq f hf
  have hlpreD : ∀ x ∈ room.files.map fileSaveHook,
      (x._id == st.db.nextOid) = false := by
    intro x hx
    obtain ⟨f, hf, rfl⟩ := List.mem_map.mp hx
    rw [fileSaveHook_id]
    exact hfresh f hf
  have hidxT : findIdxP (fun f => f.originalId == some (IdStr.uuid t)) room1.files
      = some room.files.length := by
    rw [hsplit, findIdxP_append_last _ _ _ hlpreT
      (by rw [fileSaveHook_originalId, hn1orig]; simp)]
    simp
  have hidxD : findIdxP (fun f => f._id == st.db.nextOid) room1.files
      = some room.files.length := by
    rw [hsplit, findIdxP_append_last _ _ _ hlpreD
      (by rw [fileSaveHook_id, hn1id]; simp)]
    simp
  refine ⟨room1, ?_, ?_, ?_, ?_, ?_, ?_, ?_, ?_⟩
  · rw [hst1]
    exact dbFindRoom_located db1 rid pre post room1 rfl hpre hroom
  · rfl
  · simp only [resolveThreeTier, findIdxDurable, findIdxTransient, parseOid, hidxT]
  · simp only [resolveThreeTier, findIdxDurable, findIdxTransient, findIdxScan,
      oidToStr, parseOid, hidxD]
  · rw [hst1, fileRenamed_char _ now2 sid rid _ _ hjoin1,
      renameNodeOp_uuid db1 rid (IdStr.uuid t) nm2 now2 rfl]
  · rw [hst1, fileRenamed_char _ now2 sid rid _ _ hjoin1,
      renameNodeOp_hit db1 rid st.db.nextOid nm2 now2 pre post room1
        room.files.length rfl hpre hroom hidxD]
    refine ⟨{ room1 with
        files := applyIdx (fun f => { f with name := nm2 }) room1.files
          room.files.length,
        updatedAt := now2 }, ?_, ?_⟩
    · exact dbFindRoom_located _ rid pre post _ rfl hpre hroom
    · rw [hsplit]
      have hlen : room.files.length = (room.files.map fileSaveHook).length := by
        simp
      rw [hlen, applyIdx_append_length]
      simp only [List.map_append, List.map_map]
      have hnames : List.map ((fun f : FileNode => f.name) ∘ fileSaveHook)
          room.files = List.map (fun f : FileNode => f.name) room.files :=
        List.map_congr_left fun f _ => fileSaveHook_name f
      rw [hnames]
      simp
  · rw [hst1, fileDeleted_char _ now2 sid rid _ hjoin1,
      deleteNodeOp_uuid db1 rid (IdStr.uuid t) now2 rfl]
  · rw [hst1, fileDeleted_char _ now2 sid rid _ hjoin1,
      deleteNodeOp_oid db1 rid st.db.nextOid now2 pre post room1 rfl hpre hroom]
    refine ⟨{ room1 with
        files := room1.files.filter fun f => !(f._id == st.db.nextOid),
        updatedAt := now2 }, ?_, ?_⟩
    · exact dbFindRoom_located _ rid pre post _ rfl hpre hroom
    · rw [hsplit, List.filter_append]
      have h1 : (room.files.map fileSaveHook).filter
          (fun f => !(f._id == st.db.nextOid)) = room.files.map fileSaveHook :=
        List.filter_eq_self.mpr fun x hx => by simp [hlpreD x hx]
      have h2 : ([fileSaveHook n1].filter
          (fun f => !(f._id == st.db.nextOid))) = [] := by
        simp [List.filter, fileSaveHook_id, hn1id]
      rw [h1, h2, List.append_nil]

/-- Witness for the amended C1: the lifecycle runs concretely in room "r1"
with alice's file of transient id "t1". -/
theorem C1_lifecycle_amended_witness :
    (getRoomId stA "A" = some "r1") ∧
    (stA.db.rooms = [] ++ roomR1 :: []) ∧
    (∀ f ∈ roomR1.files, (f._id == stA.db.nextOid) = false) ∧
    (∃ room1,
      dbFindRoom (fileCreated stA 5 "A" none
          { id := some (.uuid "t1"), name := "a.txt", content := some "x" }).1.db "r1"
        = some room1 ∧
      room1.files = (roomR1.files ++
        [mkFileObj stA.db.nextOid roomR1 none
          { id := some (.uuid "t1"), name := "a.txt", content := some "x" }]).map
            fileSaveHook ∧
      resolveThreeTier room1.files (IdStr.uuid "t1") = some roomR1.files.length ∧
      resolveThreeTier room1.files (oidToStr stA.db.nextOid)
        = some roomR1.files.length ∧
      (fileRenamed (fileCreated stA 5 "A" none
          { id := some (.uuid "t1"), name := "a.txt", content := some "x" }).1
          6 "A" (IdStr.uuid "t1") "b.txt").1
        = (fileCreated stA 5 "A" none
          { id := some (.uuid "t1"), name := "a.txt", content := some "x" }).1 ∧
      (∃ room2,
        dbFindRoom (fileRenamed (fileCreated stA 5 "A" none
            { id := some (.uuid "t1"), name := "a.txt", content := some "x" }).1
            6 "A" (oidToStr stA.db.nextOid) "b.txt").1.db "r1" = some room2 ∧
        room2.files.map (fun f => f.name)
          = roomR1.files.map (fun f => f.name) ++ ["b.txt"]) ∧
      (fileDeleted (fileCreated stA 5 "A" none
          { id := some (.uuid "t1"), name := "a.txt", content := some "x" }).1
          6 "A" (IdStr.uuid "t1")).1
        = (fileCreated stA 5 "A" none
          { id := some (.uuid "t1"), name := "a.txt", content := some "x" }).1 ∧
      (∃ room3,
        dbFindRoom (fileDeleted (fileCreated stA 5 "A" none
            { id := some (.uuid "t1"), name := "a.txt", content := some "x" }).1
            6 "A" (oidToStr stA.db.nextOid)).1.db "r1" = some room3 ∧
        room3.files = roomR1.files.map fileSaveHook)) := by
  refine ⟨rfl, rfl, by simp [roomR1], ?_⟩
  exact C1_lifecycle_amended stA 5 6 "A" "r1" [] [] roomR1 "t1" "a.txt" "x" "b.txt"
    rfl rfl (by simp) rfl (by simp [roomR1]) (by simp [roomR1]) rfl

theorem filter_orig_map_hook (l : List FileNode) (t : IdStr) :
    ((l.map fileSaveHook).filter fun f => f.originalId == some t)
      = (l.filter fun f => f.originalId == some t).map fileSaveHook := by
  induction l with
  | nil => rfl
  | cons a as ih =>
    cases h : (a.originalId == some t) with
    | true =>
      simp only [List.map_cons, List.filter_cons, fileSaveHook_originalId, h]
      simp [ih]
    | false =>
      simp only [List.map_cons, List.filter_cons, fileSaveHook_originalId, h]
      simp [ih]

theorem map_id_map_hook (l : List FileNode) :
    (l.map fileSaveHook).map (fun f => f._id) = l.map fun f => f._id := by
  rw [List.map_map]
  exact List.map_congr_left fun f _ => fileSaveHook_id f

/-- C2 counterexample: running the FILE_CREATED path twice with the same
transient id "t1" on room "r1" leaves TWO nodes carrying that transient id,
with distinct durable ids 0 and 1 — refuting both halves of the claim
(same durable id both times; exactly one node). -/
theorem C2_assignDurableId_counterexample :
    ((fileCreated (fileCreated stA 5 "A" none nfT1).1 6 "A" none nfT1).1.db.rooms.map
        fun r => (r.files.filter fun f => f.originalId == some (IdStr.uuid "t1")).map
          fun f => f._id)
      = [[0, 1]] := by rfl

/-- C2 amended: the creation path is not idempotent.  Each invocation with
the same transient id appends a fresh node: after two invocations the room
holds two nodes with that transient id, whose durable ids are the two
successive values of the store counter — in particular they differ. -/
theorem C2_create_not_idempotent_amended
    (st : ServerState) (now now2 : Int) (sid rid : String)
    (pre post : List Room) (room : Room)
    (pdid : Option IdStr) (nf : NewFile) (t : IdStr)
    (hjoin : getRoomId st sid = some rid)
    (hdec : st.db.rooms = pre ++ room :: post)
    (hpre : ∀ x ∈ pre, (x.roomId == rid) = false)
    (hroom : room.roomId = rid)
    (hid : optIdOrNull nf.id = some t) :
    ∃ room2,
      dbFindRoom (fileCreated (fileCreated st now sid pdid nf).1
          now2 sid pdid nf).1.db rid = some room2 ∧
      (room2.files.filter fun f => f.originalId == some t).map (fun f => f._id)
        = ((room.files.filter fun f => f.originalId == some t).map fun f => f._id)
          ++ [st.db.nextOid, st.db.nextOid + 1] ∧
      st.db.nextOid ≠ st.db.nextOid + 1 := by
  have hchar1 := fileCreated_char st now sid rid pre post room pdid nf
    hjoin hdec hpre hroom
  set n1 : FileNode := mkFileObj st.db.nextOid room pdid nf with hn1
  set room1 : Room :=
    { room with files := (room.files ++ [n1]).map fileSaveHook, updatedAt := now }
    with hroom1
  set db1 : DB :=
    { st.db with rooms := pre ++ room1 :: post, nextOid := st.db.nextOid + 1 }
    with hdb1
  have hst1 : (fileCreated st now sid pdid nf).1 = { st with db := db1 } := by
    rw [hchar1]
  have hjoin1 : getRoomId { st with db := db1 } sid = some rid := by
    rw [getRoomId_set_db]; exact hjoin
  have hchar2 := fileCreated_char { st with db := db1 } now2 sid rid pre post
    room1 pdid nf hjoin1 rfl hpre hroom
  set n2 : FileNode := mkFileObj db1.nextOid room1 pdid nf with hn2
  set room2 : Room :=
    { room1 with files := (room1.files ++ [n2]).map fileSaveHook, updatedAt := now2 }
    with hroom2
  have hn1orig : (n1.originalId == some t) = true := by
    simp [hn1, mkFileObj, hid]
  have hn2orig : (n2.originalId == some t) = true := by
    simp [hn2, mkFileObj, hid]
  have hn1id : n1._id = st.db.nextOid := by simp [hn1, mkFileObj]
  have hn2id : n2._id = st.db.nextOid + 1 := by simp [hn2, mkFileObj, hdb1]
  refine ⟨room2, ?_, ?_, by omega⟩
  · rw [hst1, hchar2]
    exact dbFindRoom_located _ rid pre post room2 rfl hpre hroom
  · have e2 : room2.files = (room1.files ++ [n2]).map fileSaveHook := rfl
    have e1 : room1.files = (room.files ++ [n1]).map fileSaveHook := rfl
    rw [e2, filter_orig_map_hook, List.filter_append, e1,
      filter_orig_map_hook, List.filter_append]
    simp only [List.filter_cons, List.filter_nil, hn1orig, hn2orig, if_true]
    simp only [List.map_append, map_id_map_hook]
    simp [hn1id, hn2id]

/-- Witness for the amended C2: two creations with transient id "t1" on the
fresh room "r1" leave nodes with durable ids 0 and 1. -/
theorem C2_create_not_idempotent_amended_witness :
    (getRoomId stA "A" = some "r1") ∧
    (stA.db.rooms = [] ++ roomR1 :: []) ∧
    (optIdOrNull nfT1.id = some (IdStr.uuid "t1")) ∧
    ∃ room2,
      dbFindRoom (fileCreated (fileCreated stA 5 "A" none nfT1).1
          6 "A" none nfT1).1.db "r1" = some room2 ∧
      (room2.files.filter fun f => f.originalId == some (IdStr.uuid "t1")).map
          (fun f => f._id)
        = ((roomR1.files.filter fun f =>
            f.originalId == some (IdStr.uuid "t1")).map fun f => f._id)
          ++ [stA.db.nextOid, stA.db.nextOid + 1] ∧
      stA.db.nextOid ≠ stA.db.nextOid + 1 := by
  refine ⟨rfl, rfl, rfl, ?_⟩
  exact C2_create_not_idempotent_amended stA 5 6 "A" "r1" [] [] roomR1 none nfT1
    (IdStr.uuid "t1") rfl rfl (by simp) rfl rfl

/-- C3 counterexample: alice creates the folder "src" carrying transient id
"t1" (the store assigns durable id 0), then creates "main.go" under parent
ref "t1".  The stored file's parent pointer is null, not the folder's
durable id: the DIRECTORY_CREATED handler never persisted the folder's
transient id, so the parent lookup misses and the UUID cannot be cast. -/
theorem C3_parent_resolution_counterexample :
    ((fileCreated (directoryCreated stA 5 "A" none ndSrc).1 6 "A"
        (some (IdStr.uuid "t1")) nfMain).1.db.rooms.map
      fun r => r.files.map fun f => (f.name, f._id, f.parentId))
    = [[("src", 0, none), ("main.go", 1, (none : Option Nat))]] := by rfl

/-- C3 amended: in the scenario the file creation still succeeds, but the
file is stored as a root-level node: parentId is null while the raw parent
ref "t1" is retained in parentOriginalId.  Only when the parent ref is the
folder's durable id does the parent pointer resolve to it. -/
theorem C3_parent_resolution_amended :
    ((fileCreated (directoryCreated stA 5 "A" none ndSrc).1 6 "A"
        (some (IdStr.uuid "t1")) nfMain).1.db.rooms.map
      fun r => r.files.map fun f => (f.name, f.parentId, f.parentOriginalId))
    = [[("src", none, none),
        ("main.go", (none : Option Nat), some (IdStr.uuid "t1"))]] ∧
    ((fileCreated (directoryCreated stA 5 "A" none ndSrc).1 6 "A"
        (some (oidToStr 0)) nfMain).1.db.rooms.map
      fun r => r.files.map fun f => (f.name, f.parentId))
    = [[("src", none), ("main.go", some 0)]] := by
  exact ⟨rfl, rfl⟩

theorem emitRefresh_emits (st : ServerState) (rid : String) :
    (emitRefresh st rid).2 = [] ∨
    ∃ fs, (emitRefresh st rid).2
      = [Emit.toRoom rid (EventMsg.fileStructureUpdated fs)] := by
  unfold emitRefresh
  cases h : dbFindRoom st.db rid with
  | none => left; rfl
  | some room => right; exact ⟨room.files, rfl⟩

theorem fileUpdated_emits (st : ServerState) (now : Int) (sid rid : String)
    (fid : IdStr) (c : String) (hjoin : getRoomId st sid = some rid) :
    (fileUpdated st now sid fid c).2 = [] ∨
    ∃ fs, (fileUpdated st now sid fid c).2
      = [Emit.toRoom rid (EventMsg.fileStructureUpdated fs)] := by
  simp only [fileUpdated, hjoin]
  repeat' split
  all_goals first
    | (left; rfl)
    | (exact emitRefresh_emits _ _)

/-- C5 counterexample: in room "r1" with members alice, bob, carol, alice's
FILE_UPDATED triggers the authoritative refresh via io.to(roomId), which is
delivered back to alice herself — refuting "never back to the origin". -/
theorem C5_no_echo_counterexample :
    (handleFileEvent stABC 7 "A" (.fUpdated (oidToStr 0) "z")).2
      = [Emit.toRoom "r1" (EventMsg.fileStructureUpdated
          [{ fileF0 with content := "z" }])] ∧
    receives (handleFileEvent stABC 7 "A"
        (.fUpdated (oidToStr 0) "z")).1.userSocketMap
      (Emit.toRoom "r1" (EventMsg.fileStructureUpdated
        [{ fileF0 with content := "z" }])) "A" = true := by
  exact ⟨rfl, rfl⟩

/-- C5 amended: every delta broadcast of a file-tree mutation from a joined
sender goes through socket.broadcast.to(roomId) and is never delivered back
to the sender; the one exception is the FILE_STRUCTURE_UPDATED refresh
after a content update, which io.to(roomId) delivers to the whole room,
the origin included. -/
theorem C5_broadcast_amended (st : ServerState) (now : Int) (sid rid : String)
    (hjoin : getRoomId st sid = some rid) :
    ∀ ev : FileEvent, ∀ em ∈ (handleFileEvent st now sid ev).2,
      ((∃ p, em = Emit.broadcastToRoom sid rid p) ∧
        receives st.userSocketMap em sid = false) ∨
      ((∃ fs, em = Emit.toRoom rid (EventMsg.fileStructureUpdated fs)) ∧
        receives st.userSocketMap em sid = true) := by
  intro ev em hem
  cases ev with
  | dirCreated p nd =>
    simp [handleFileEvent, directoryCreated, hjoin] at hem
    subst hem
    exact Or.inl ⟨⟨_, rfl⟩, by simp [receives]⟩
  | dirUpdated d ch =>
    simp [handleFileEvent, directoryUpdated, hjoin] at hem
    subst hem
    exact Or.inl ⟨⟨_, rfl⟩, by simp [receives]⟩
  | dirRenamed d n =>
    simp [handleFileEvent, directoryRenamed, hjoin] at hem
    subst hem
    exact Or.inl ⟨⟨_, rfl⟩, by simp [receives]⟩
  | dirDeleted d =>
    simp [handleFileEvent, directoryDeleted, hjoin] at hem
    subst hem
    exact Or.inl ⟨⟨_, rfl⟩, by simp [receives]⟩
  | fCreated p nf =>
    cases hf : dbFindRoom st.db rid with
    | none => simp [handleFileEvent, fileCreated, hjoin, hf] at hem
    | some room =>
      simp [handleFileEvent, fileCreated, hjoin, hf] at hem
      subst hem
      exact Or.inl ⟨⟨_, rfl⟩, by simp [receives]⟩
  | fUpdated fid c =>
    simp only [handleFileEvent] at hem
    rcases fileUpdated_emits st now sid rid fid c hjoin with h | ⟨fs, h⟩
    · rw [h] at hem; simp at hem
    · rw [h] at hem
      simp at hem
      subst hem
      refine Or.inr ⟨⟨fs, rfl⟩, ?_⟩
      simp only [receives]
      exact memberB_of_getRoomId st sid rid hjoin
  | fRenamed fid n =>
    simp [handleFileEvent, fileRenamed, hjoin] at hem
    subst hem
    exact Or.inl ⟨⟨_, rfl⟩, by simp [receives]⟩
  | fDeleted fid =>
    simp [handleFileEvent, fileDeleted, hjoin] at hem
    subst hem
    exact Or.inl ⟨⟨_, rfl⟩, by simp [receives]⟩

/-- Witness for the amended C5, at the three-member room state. -/
theorem C5_broadcast_amended_witness :
    (getRoomId stABC "A" = some "r1") ∧
    (∀ ev : FileEvent, ∀ em ∈ (handleFileEvent stABC 7 "A" ev).2,
      ((∃ p, em = Emit.broadcastToRoom "A" "r1" p) ∧
        receives stABC.userSocketMap em "A" = false) ∨
      ((∃ fs, em = Emit.toRoom "r1" (EventMsg.fileStructureUpdated fs)) ∧
        receives stABC.userSocketMap em "A" = true)) :=
  ⟨rfl, C5_broadcast_amended stABC 7 "A" "r1" rfl⟩

/-- C6 counterexample: alice's FILE_RENAMED succeeds (the node is renamed
in the store) yet the only emission is the delta broadcast — no full
authoritative refresh of the room's file collection is sent, refuting
"after every successful mutation". -/
theorem C6_full_refresh_counterexample :
    ((handleFileEvent stABC 7 "A" (.fRenamed (oidToStr 0) "b.txt")).2.map
      isRefreshEmit = [false]) ∧
    ((handleFileEvent stABC 7 "A" (.fRenamed (oidToStr 0) "b.txt")).1.db.rooms.map
        fun r => r.files.map fun f => f.name) = [["b.txt"]] := by
  exact ⟨rfl, rfl⟩

/-- C6 amended: only the content-update handler follows a mutation with the
full authoritative refresh.  Create, rename and delete (for files and
directories alike) emit only their delta broadcast, never a refresh; a
content update that resolves its target emits exactly one refresh carrying
the room's entire post-state file collection. -/
theorem C6_refresh_only_update_amended
    (st : ServerState) (now : Int) (sid rid : String)
    (pre post : List Room) (room : Room)
    (hjoin : getRoomId st sid = some rid)
    (hdec : st.db.rooms = pre ++ room :: post)
    (hpre : ∀ x ∈ pre, (x.roomId == rid) = false)
    (hroom : room.roomId = rid)
    (hpost : ∀ x ∈ post, (x.roomId == rid) = false) :
    (∀ ev : FileEvent, (∀ fid c, ev ≠ FileEvent.fUpdated fid c) →
      ∀ em ∈ (handleFileEvent st now sid ev).2, isRefreshEmit em = false) ∧
    (∀ fid c i, resolveThreeTier room.files fid = some i →
      ∃ r1, dbFindRoom (handleFileEvent st now sid
          (.fUpdated fid c)).1.db rid = some r1 ∧
        (handleFileEvent st now sid (.fUpdated fid c)).2
          = [Emit.toRoom rid (EventMsg.fileStructureUpdated r1.files)]) := by
  constructor
  · intro ev hne em hem
    cases ev with
    | dirCreated p nd =>
      simp [handleFileEvent, directoryCreated, hjoin] at hem
      subst hem; rfl
    | dirUpdated d ch =>
      simp [handleFileEvent, directoryUpdated, hjoin] at hem
      subst hem; rfl
    | dirRenamed d n =>
      simp [handleFileEvent, directoryRenamed, hjoin] at hem
      subst hem; rfl
    | dirDeleted d =>
      simp [handleFileEvent, directoryDeleted, hjoin] at hem
      subst hem; rfl
    | fCreated p nf =>
      cases hf : dbFindRoom st.db rid with
      | none => simp [handleFileEvent, fileCreated, hjoin, hf] at hem
      | some room' =>
        simp [handleFileEvent, fileCreated, hjoin, hf] at hem
        subst hem; rfl
    | fUpdated fid c => exact absurd rfl (hne fid c)
    | fRenamed fid n =>
      simp [handleFileEvent, fileRenamed, hjoin] at hem
      subst hem; rfl
    | fDeleted fid =>
      simp [handleFileEvent, fileDeleted, hjoin] at hem
      subst hem; rfl
  · intro fid c i hres
    simp only [handleFileEvent]
    unfold resolveThreeTier at hres
    cases hd : findIdxDurable room.files fid with
    | some j =>
      rw [hd] at hres
      have hj : j = i := by simpa using hres
      subst hj
      cases hp : parseOid fid with
      | none => rw [findIdxDurable, hp] at hd; cases hd
      | some oid =>
        rw [findIdxDurable, hp] at hd
        rw [fileUpdated_tier1 st now sid rid pre post room fid c oid j
          hjoin hdec hpre hroom hp hd]
        exact ⟨_, dbFindRoom_located _ rid pre post _ rfl hpre hroom, rfl⟩
    | none =>
      rw [hd] at hres
      cases ht2 : findIdxTransient room.files fid with
      | some j =>
        rw [ht2] at hres
        have hj : j = i := by simpa using hres
        subst hj
        rw [fileUpdated_tier2 st now sid rid pre post room fid c j
          hjoin hdec hpre hroom hpost hd ht2]
        exact ⟨_, dbFindRoom_located _ rid pre post _ rfl hpre hroom, rfl⟩
      | none =>
        rw [ht2] at hres
        rw [fileUpdated_tier3 st now sid rid pre post room fid c i
          hjoin hdec hpre hroom hpost hd ht2 hres]
        exact ⟨_, dbFindRoom_located _ rid pre post _ rfl hpre hroom, rfl⟩

/-- Witness for the amended C6, at the three-member room state. -/
theorem C6_refresh_only_update_amended_witness :
    (getRoomId stABC "A" = some "r1") ∧
    (stABC.db.rooms = [] ++ roomR1f :: []) ∧
    ((∀ ev : FileEvent, (∀ fid c, ev ≠ FileEvent.fUpdated fid c) →
        ∀ em ∈ (handleFileEvent stABC 7 "A" ev).2, isRefreshEmit em = false) ∧
     (∀ fid c i, resolveThreeTier roomR1f.files fid = some i →
       ∃ r1, dbFindRoom (handleFileEvent stABC 7 "A"
           (.fUpdated fid c)).1.db "r1" = some r1 ∧
         (handleFileEvent stABC 7 "A" (.fUpdated fid c)).2
           = [Emit.toRoom "r1" (EventMsg.fileStructureUpdated r1.files)])) :=
  ⟨rfl, rfl, C6_refresh_only_update_amended stABC 7 "A" "r1" [] [] roomR1f
    rfl rfl (by simp) rfl (by simp)⟩

/-- C7: when a second connection requests to join a room with a username
already held by a joined member, the handler emits UsernameTaken (the
USERNAME_EXISTS event) to that connection only, the presence registry is
left unchanged (the second connection is not added, hence stays unjoined),
and the first member's registry entry survives untouched. -/
theorem C7_username_taken (st : ServerState) (now : Int)
    (sid rid un : String) (u0 : User)
    (hu : u0 ∈ st.userSocketMap) (hur : u0.roomId = rid)
    (hun : u0.username = un) :
    ((joinRequest st now sid rid un).1.userSocketMap = st.userSocketMap) ∧
    ((joinRequest st now sid rid un).2
      = [Emit.toSocket sid EventMsg.usernameExists]) ∧
    (∀ s, receives (joinRequest st now sid rid un).1.userSocketMap
        (Emit.toSocket sid EventMsg.usernameExists) s = (s == sid)) ∧
    u0 ∈ (joinRequest st now sid rid un).1.userSocketMap := by
  have hchar := joinRequest_dup_char st now sid rid un u0 hu hur hun
  rw [hchar]
  exact ⟨rfl, rfl, fun s => rfl, hu⟩

/-- Witness for C7: bob's connection "B" tries to join "r1" as "alice"
while alice is already joined. -/
theorem C7_username_taken_witness :
    (userA ∈ stA.userSocketMap) ∧
    ((joinRequest stA 9 "B" "r1" "alice").1.userSocketMap
      = stA.userSocketMap) ∧
    ((joinRequest stA 9 "B" "r1" "alice").2
      = [Emit.toSocket "B" EventMsg.usernameExists]) ∧
    (∀ s, receives (joinRequest stA 9 "B" "r1" "alice").1.userSocketMap
        (Emit.toSocket "B" EventMsg.usernameExists) s = (s == "B")) ∧
    userA ∈ (joinRequest stA 9 "B" "r1" "alice").1.userSocketMap := by
  have h := C7_username_taken stA 9 "B" "r1" "alice" userA (by decide) rfl rfl
  exact ⟨by decide, h.1, h.2.1, h.2.2.1, h.2.2.2⟩

/-- C10: the rejection is not atomic with respect to the durable store: on
a duplicate-username join the handler has already created the room
document (when absent) and has already persisted a new durable online User
record for the rejected connection before the UsernameTaken notice. -/
theorem C10_join_rejection_not_atomic (st : ServerState) (now : Int)
    (sid rid un : String) (u0 : User)
    (hu : u0 ∈ st.userSocketMap) (hur : u0.roomId = rid)
    (hun : u0.username = un) :
    ((joinRequest st now sid rid un).2
      = [Emit.toSocket sid EventMsg.usernameExists]) ∧
    ((joinRequest st now sid rid un).1.db.users = st.db.users ++
      [{ username := un, roomId := rid, status := .online, cursorPosition := 0,
         typing := false, socketId := sid, updatedAt := now }]) ∧
    (∃ r ∈ (joinRequest st now sid rid un).1.db.rooms, r.roomId = rid) ∧
    (dbFindRoom st.db rid = none →
      (joinRequest st now sid rid un).1.db.rooms
        = st.db.rooms ++ [freshRoom rid now]) := by
  have hchar := joinRequest_dup_char st now sid rid un u0 hu hur hun
  rw [hchar]
  refine ⟨rfl, rfl, ?_, ?_⟩
  · cases hf : dbFindRoom st.db rid with
    | some r0 =>
      have hf2 : st.db.rooms.find? (fun r => r.roomId == rid) = some r0 := hf
      have hbeq := List.find?_some hf2
      exact ⟨r0, List.mem_of_find?_eq_some hf2, eq_of_beq hbeq⟩
    | none =>
      exact ⟨freshRoom rid now, by simp, rfl⟩
  · intro hf
    rw [hf]

/-- Witness for C10: connection "B" joins "r1" as "alice" while alice is
joined but the room document is absent; the room gets created and the
online User record persisted even though the join is rejected. -/
theorem C10_join_rejection_not_atomic_witness :
    (userA ∈ stNoRoom.userSocketMap) ∧
    (dbFindRoom stNoRoom.db "r1" = none) ∧
    ((joinRequest stNoRoom 9 "B" "r1" "alice").2
      = [Emit.toSocket "B" EventMsg.usernameExists]) ∧
    ((joinRequest stNoRoom 9 "B" "r1" "alice").1.db.users
      = stNoRoom.db.users ++
        [{ username := "alice", roomId := "r1", status := .online,
           cursorPosition := 0, typing := false, socketId := "B",
           updatedAt := 9 }]) ∧
    (∃ r ∈ (joinRequest stNoRoom 9 "B" "r1" "alice").1.db.rooms,
      r.roomId = "r1") ∧
    ((joinRequest stNoRoom 9 "B" "r1" "alice").1.db.rooms
      = stNoRoom.db.rooms ++ [freshRoom "r1" 9]) := by
  have h := C10_join_rejection_not_atomic stNoRoom 9 "B" "r1" "alice" userA
    (by decide) rfl rfl
  exact ⟨by decide, rfl, h.1, h.2.1, h.2.2.1, h.2.2.2 rfl⟩

/-- C8 counterexample: a connection "X" that never joined sends
SYNC_FILE_STRUCTURE; far from being ignored, the event is relayed to the
target socket "B" — an observable effect on another connection. -/
theorem C8_unjoined_counterexample :
    (stABC.userSocketMap.find? fun u => u.socketId == "X") = none ∧
    handleEvent stABC 1 "X" (.syncFileStructureEv "payload" "B")
      = (stABC, [Emit.toSocket "B" (EventMsg.syncFileStructureEv "payload")]) ∧
    receives stABC.userSocketMap
      (Emit.toSocket "B" (EventMsg.syncFileStructureEv "payload")) "B" = true := by
  exact ⟨rfl, rfl, rfl⟩

theorem find?_map_comm (p : α → Bool) (g : α → α) (l : List α)
    (h : ∀ u, p (g u) = p u) : (l.map g).find? p = (l.find? p).map g := by
  induction l with
  | nil => rfl
  | cons a as ih =>
    cases ha : p a with
    | true => simp [List.find?, h, ha]
    | false => simp [List.find?, h, ha, ih]

/-- C8 amended: every handler that derives the room from the sender's own
registry entry ignores events from unjoined connections with no state
change and no emission; but SYNC_FILE_STRUCTURE and SYNC_DRAWING relay to
the payload's target socket regardless of the sender's state, and the
USER_ONLINE/USER_OFFLINE handlers key on the payload-supplied socket id:
they are no-ops only when that id is itself unregistered, while a
registered payload id gets its presence entry mutated, mirrored to the
durable user record, and announced to its room, even though the sender
never joined. -/
theorem C8_unjoined_ignored_amended (st : ServerState) (now : Int)
    (sid : String)
    (h : ∀ u ∈ st.userSocketMap, (u.socketId == sid) = false) :
    (∀ ev : FileEvent, handleFileEvent st now sid ev = (st, [])) ∧
    (∀ un m, sendMessage st now sid un m = (st, [])) ∧
    (requestDrawing st sid = (st, [])) ∧
    (∀ snap, drawingUpdate st now sid snap = (st, [])) ∧
    (∀ cp, typingStart st now sid cp = (st, [])) ∧
    (typingPause st now sid = (st, [])) ∧
    (∀ sid2, (∀ u ∈ st.userSocketMap, (u.socketId == sid2) = false) →
      userOffline st now sid sid2 = (st, []) ∧
      userOnline st now sid sid2 = (st, [])) ∧
    (∀ p tgt, syncFileStructure st p tgt
      = (st, [Emit.toSocket tgt (EventMsg.syncFileStructureEv p)])) ∧
    (∀ d tgt, syncDrawing st sid d tgt
      = (st, [Emit.broadcastToSocket sid tgt (EventMsg.syncDrawingEv d)])) ∧
    (∀ sid2 u2 rid2,
      (st.userSocketMap.find? fun u => u.socketId == sid2) = some u2 →
      u2.roomId = rid2 → (rid2 == "") = false →
      ((userOffline st now sid sid2).1.userSocketMap
        = st.userSocketMap.map fun u =>
            if u.socketId == sid2 then { u with status := ConnStatus.offline }
            else u) ∧
      { u2 with status := ConnStatus.offline }
        ∈ (userOffline st now sid sid2).1.userSocketMap ∧
      (userOffline st now sid sid2).1.db
        = dbUpdateUser st.db sid2
            (fun du =>
              { du with status := ConnStatus.offline, updatedAt := now }) ∧
      (userOffline st now sid sid2).2
        = [Emit.broadcastToRoom sid rid2 (EventMsg.userOfflineEv sid2)]) ∧
    (∀ sid2 u2 rid2,
      (st.userSocketMap.find? fun u => u.socketId == sid2) = some u2 →
      u2.roomId = rid2 → (rid2 == "") = false →
      ((userOnline st now sid sid2).1.userSocketMap
        = st.userSocketMap.map fun u =>
            if u.socketId == sid2 then { u with status := ConnStatus.online }
            else u) ∧
      { u2 with status := ConnStatus.online }
        ∈ (userOnline st now sid sid2).1.userSocketMap ∧
      (userOnline st now sid sid2).1.db
        = dbUpdateUser st.db sid2
            (fun du =>
              { du with status := ConnStatus.online, updatedAt := now }) ∧
      (userOnline st now sid sid2).2
        = [Emit.broadcastToRoom sid rid2 (EventMsg.userOnlineEv sid2)]) := by
  have hnone := getRoomId_none_of_unjoined st sid h
  have husr := getUserBySocketId_none_of_unjoined st sid h
  refine ⟨?_, ?_, ?_, ?_, ?_, ?_, ?_, fun p tgt => rfl, fun d tgt => rfl,
    ?_, ?_⟩
  · intro ev
    cases ev with
    | dirCreated p nd => simp [handleFileEvent, directoryCreated, hnone]
    | dirUpdated d ch => simp [handleFileEvent, directoryUpdated, hnone]
    | dirRenamed d n => simp [handleFileEvent, directoryRenamed, hnone]
    | dirDeleted d => simp [handleFileEvent, directoryDeleted, hnone]
    | fCreated p nf => simp [handleFileEvent, fileCreated, hnone]
    | fUpdated fid c => simp [handleFileEvent, fileUpdated, hnone]
    | fRenamed fid n => simp [handleFileEvent, fileRenamed, hnone]
    | fDeleted fid => simp [handleFileEvent, fileDeleted, hnone]
  · intro un m; simp [sendMessage, hnone]
  · simp [requestDrawing, hnone]
  · intro snap; simp [drawingUpdate, hnone]
  · intro cp
    have hmap := map_if_no_match (fun u => u.socketId == sid)
      (fun u => { u with typing := true, cursorPosition := cp })
      st.userSocketMap h
    have husr2 : getUserBySocketId
        { db := st.db, userSocketMap := st.userSocketMap } sid = none := husr
    simp only [typingStart, hmap, husr2]
  · have hmap := map_if_no_match (fun u => u.socketId == sid)
      (fun u => { u with typing := false }) st.userSocketMap h
    have husr2 : getUserBySocketId
        { db := st.db, userSocketMap := st.userSocketMap } sid = none := husr
    simp only [typingPause, hmap, husr2]
  · intro sid2 h2
    have hmapOff := map_if_no_match (fun u => u.socketId == sid2)
      (fun u => { u with status := ConnStatus.offline }) st.userSocketMap h2
    have hmapOn := map_if_no_match (fun u => u.socketId == sid2)
      (fun u => { u with status := ConnStatus.online }) st.userSocketMap h2
    have hnone2 := getRoomId_none_of_unjoined st sid2 h2
    have hnone3 : getRoomId
        { db := st.db, userSocketMap := st.userSocketMap } sid2 = none := hnone2
    constructor
    · simp only [userOffline, hmapOff, hnone3]
    · simp only [userOnline, hmapOn, hnone3]
  · intro sid2 u2 rid2 hfind hrid hne
    have hbu2 := List.find?_some hfind
    have hpres : ∀ u : User,
        (((fun u => if u.socketId == sid2
            then { u with status := ConnStatus.offline } else u) u).socketId
          == sid2) = (u.socketId == sid2) := by
      intro u
      cases hb : (u.socketId == sid2) <;> simp [hb]
    have hfind1 : (st.userSocketMap.map fun u =>
        if u.socketId == sid2 then { u with status := ConnStatus.offline }
        else u).find? (fun u => u.socketId == sid2)
        = some { u2 with status := ConnStatus.offline } := by
      rw [find?_map_comm _ _ _ hpres, hfind]
      simp only [Option.map_some']
      rw [if_pos hbu2]
    have hg : getRoomId { st with userSocketMap := st.userSocketMap.map fun u =>
        if u.socketId == sid2 then { u with status := ConnStatus.offline }
        else u } sid2 = some rid2 := by
      unfold getRoomId
      simp only [hfind1, Option.map_some', hrid]
      simp [hne]
    have hchar : userOffline st now sid sid2 =
        (({ db := dbUpdateUser st.db sid2 (fun du => { du with status := ConnStatus.offline, updatedAt := now }),
             userSocketMap := st.userSocketMap.map fun u =>
               if u.socketId == sid2 then { u with status := ConnStatus.offline }
               else u } : ServerState),
         [Emit.broadcastToRoom sid rid2 (EventMsg.userOfflineEv sid2)]) := by
      simp only [userOffline, hg]
    rw [hchar]
    refine ⟨rfl, ?_, rfl, rfl⟩
    have hmem := List.mem_map_of_mem
      (fun u => if u.socketId == sid2
        then { u with status := ConnStatus.offline } else u)
      (List.mem_of_find?_eq_some hfind)
    simpa [hbu2] using hmem
  · intro sid2 u2 rid2 hfind hrid hne
    have hbu2 := List.find?_some hfind
    have hpres : ∀ u : User,
        (((fun u => if u.socketId == sid2
            then { u with status := ConnStatus.online } else u) u).socketId
          == sid2) = (u.socketId == sid2) := by
      intro u
      cases hb : (u.socketId == sid2) <;> simp [hb]
    have hfind1 : (st.userSocketMap.map fun u =>
        if u.socketId == sid2 then { u with status := ConnStatus.online }
        else u).find? (fun u => u.socketId == sid2)
        = some { u2 with status := ConnStatus.online } := by
      rw [find?_map_comm _ _ _ hpres, hfind]
      simp only [Option.map_some']
      rw [if_pos hbu2]
    have hg : getRoomId { st with userSocketMap := st.userSocketMap.map fun u =>
        if u.socketId == sid2 then { u with status := ConnStatus.online }
        else u } sid2 = some rid2 := by
      unfold getRoomId
      simp only [hfind1, Option.map_some', hrid]
      simp [hne]
    have hchar : userOnline st now sid sid2 =
        (({ db := dbUpdateUser st.db sid2 (fun du => { du with status := ConnStatus.online, updatedAt := now }),
             userSocketMap := st.userSocketMap.map fun u =>
               if u.socketId == sid2 then { u with status := ConnStatus.online }
               else u } : ServerState),
         [Emit.broadcastToRoom sid rid2 (EventMsg.userOnlineEv sid2)]) := by
      simp only [userOnline, hg]
    rw [hchar]
    refine ⟨rfl, ?_, rfl, rfl⟩
    have hmem := List.mem_map_of_mem
      (fun u => if u.socketId == sid2
        then { u with status := ConnStatus.online } else u)
      (List.mem_of_find?_eq_some hfind)
    simpa [hbu2] using hmem

/-- Witness for the amended C8: connection "X" is unjoined in the
three-member state. -/
theorem C8_unjoined_ignored_amended_witness :
    (∀ u ∈ stABC.userSocketMap, (u.socketId == "X") = false) ∧
    ((∀ ev : FileEvent, handleFileEvent stABC 1 "X" ev = (stABC, [])) ∧
     (∀ un m, sendMessage stABC 1 "X" un m = (stABC, [])) ∧
     (requestDrawing stABC "X" = (stABC, [])) ∧
     (∀ snap, drawingUpdate stABC 1 "X" snap = (stABC, [])) ∧
     (∀ cp, typingStart stABC 1 "X" cp = (stABC, [])) ∧
     (typingPause stABC 1 "X" = (stABC, [])) ∧
     (∀ sid2, (∀ u ∈ stABC.userSocketMap, (u.socketId == sid2) = false) →
       userOffline stABC 1 "X" sid2 = (stABC, []) ∧
       userOnline stABC 1 "X" sid2 = (stABC, [])) ∧
     (∀ p tgt, syncFileStructure stABC p tgt
       = (stABC, [Emit.toSocket tgt (EventMsg.syncFileStructureEv p)])) ∧
     (∀ d tgt, syncDrawing stABC "X" d tgt
       = (stABC, [Emit.broadcastToSocket "X" tgt (EventMsg.syncDrawingEv d)])) ∧
     (∀ sid2 u2 rid2,
       (stABC.userSocketMap.find? fun u => u.socketId == sid2) = some u2 →
       u2.roomId = rid2 → (rid2 == "") = false →
       ((userOffline stABC 1 "X" sid2).1.userSocketMap
         = stABC.userSocketMap.map fun u =>
             if u.socketId == sid2 then { u with status := ConnStatus.offline }
             else u) ∧
       { u2 with status := ConnStatus.offline }
         ∈ (userOffline stABC 1 "X" sid2).1.userSocketMap ∧
       (userOffline stABC 1 "X" sid2).1.db
         = dbUpdateUser stABC.db sid2
             (fun du =>
               { du with status := ConnStatus.offline, updatedAt := 1 }) ∧
       (userOffline stABC 1 "X" sid2).2
         = [Emit.broadcastToRoom "X" rid2 (EventMsg.userOfflineEv sid2)]) ∧
     (∀ sid2 u2 rid2,
       (stABC.userSocketMap.find? fun u => u.socketId == sid2) = some u2 →
       u2.roomId = rid2 → (rid2 == "") = false →
       ((userOnline stABC 1 "X" sid2).1.userSocketMap
         = stABC.userSocketMap.map fun u =>
             if u.socketId == sid2 then { u with status := ConnStatus.online }
             else u) ∧
       { u2 with status := ConnStatus.online }
         ∈ (userOnline stABC 1 "X" sid2).1.userSocketMap ∧
       (userOnline stABC 1 "X" sid2).1.db
         = dbUpdateUser stABC.db sid2
             (fun du =>
               { du with status := ConnStatus.online, updatedAt := 1 }) ∧
       (userOnline stABC 1 "X" sid2).2
         = [Emit.broadcastToRoom "X" rid2 (EventMsg.userOnlineEv sid2)])) :=
  ⟨by decide, C8_unjoined_ignored_amended stABC 1 "X" (by decide)⟩

/-- C9 counterexample: at time 100d, the room whose lastActivity is 31 days
old (but whose document was updated 1 day ago) SURVIVES the cleanup run —
the deleteMany query filters on the mongoose updatedAt timestamp, not on
lastActivity, refuting the claim as stated. -/
theorem C9_cleanup_lastActivity_counterexample :
    roomStaleLA.lastActivity < 100 * msPerDay - 30 * msPerDay ∧
    (cleanupStaleData (100 * msPerDay) dbC9).rooms = [roomStaleLA] := by
  exact ⟨by decide, rfl⟩

/-- C9 amended: the cleanup run deletes exactly the rooms whose mongoose
updatedAt timestamp (not lastActivity) is older than 30 days, keeps all
others, purges offline users whose updatedAt is older than 24 hours, and
keeps every other user. -/
theorem C9_cleanup_by_updatedAt_amended (now : Int) (db : DB) :
    (∀ r ∈ db.rooms,
      (r.updatedAt < now - 30 * msPerDay →
        r ∉ (cleanupStaleData now db).rooms) ∧
      (¬ r.updatedAt < now - 30 * msPerDay →
        r ∈ (cleanupStaleData now db).rooms)) ∧
    (∀ u ∈ db.users,
      (u.status = ConnStatus.offline ∧ u.updatedAt < now - msPerDay →
        u ∉ (cleanupStaleData now db).users) ∧
      (¬ (u.status = ConnStatus.offline ∧ u.updatedAt < now - msPerDay) →
        u ∈ (cleanupStaleData now db).users)) := by
  constructor
  · intro r hr
    constructor
    · intro hlt hmem
      have hc := (List.mem_filter.mp hmem).2
      simp at hc
      exact absurd hlt (by simpa using hc)
    · intro hge
      exact List.mem_filter.mpr ⟨hr, by simp [hge]⟩
  · intro u hu
    constructor
    · intro hand hmem
      have hc := (List.mem_filter.mp hmem).2
      simp [hand.1] at hc
      exact absurd hand.2 (by simpa using hc)
    · intro hna
      refine List.mem_filter.mpr ⟨hu, ?_⟩
      by_cases hoff : u.status = ConnStatus.offline
      · have hlt : ¬ u.updatedAt < now - msPerDay := fun hl => hna ⟨hoff, hl⟩
        simp [hoff, hlt]
      · simp [hoff]

/-- Witness for the amended C9 at time 100d over `dbC9w`: the room updated
31 days ago is deleted, the one updated 1 day ago is kept, the offline user
last updated 3 days ago is purged, the offline user updated within 24 hours
is kept. -/
theorem C9_cleanup_by_updatedAt_amended_witness :
    (roomStaleUpd ∈ dbC9w.rooms ∧
      roomStaleUpd.updatedAt < 100 * msPerDay - 30 * msPerDay ∧
      roomStaleUpd ∉ (cleanupStaleData (100 * msPerDay) dbC9w).rooms) ∧
    (roomFresh ∈ dbC9w.rooms ∧
      ¬ roomFresh.updatedAt < 100 * msPerDay - 30 * msPerDay ∧
      roomFresh ∈ (cleanupStaleData (100 * msPerDay) dbC9w).rooms) ∧
    (uStaleOff ∈ dbC9w.users ∧
      uStaleOff ∉ (cleanupStaleData (100 * msPerDay) dbC9w).users) ∧
    (uFreshOff ∈ dbC9w.users ∧
      uFreshOff ∈ (cleanupStaleData (100 * msPerDay) dbC9w).users) := by
  refine ⟨⟨by decide, by decide, ?_⟩, ⟨by decide, by decide, ?_⟩,
    ⟨by decide, ?_⟩, ⟨by decide, ?_⟩⟩
  · exact ((C9_cleanup_by_updatedAt_amended (100 * msPerDay) dbC9w).1
      roomStaleUpd (by decide)).1 (by decide)
  · exact ((C9_cleanup_by_updatedAt_amended (100 * msPerDay) dbC9w).1
      roomFresh (by decide)).2 (by decide)
  · exact ((C9_cleanup_by_updatedAt_amended (100 * msPerDay) dbC9w).2
      uStaleOff (by decide)).1 ⟨rfl, by decide⟩
  · exact ((C9_cleanup_by_updatedAt_amended (100 * msPerDay) dbC9w).2
      uFreshOff (by decide)).2 (by decide)
